import Mathlib

/-
Verification of the beanhub-import pipeline (package `beanhub_import`):
a shallow embedding, in Lean 4, of `post_processor.py`, `processor.py`,
`data_types.py` and `constants.py`, together with theorems that settle the
frozen claims about the natural-language specification.

Modelling conventions:
- Python strings are `String`, `None`-able values are `Option`, lists are
  `List`, `frozenset`s of flags are `Finset`.
- `pathlib.Path` values are `String`s; `Path.resolve` and the `/` join are
  oracles (function parameters), as they depend on the file system.
- The sandboxed Jinja2 template engine is external to the repository; it is
  modelled as an oracle `TemplateEnv : String → Ctx → String` mapping a
  template and a rendering context to the rendered string.  Date and decimal
  values that only flow into that oracle are represented by their canonical
  string forms.
- The beancount parser/printer pair (`beancount_parser`, external to this
  repository per the spec) is modelled structurally: `to_parser_entry`
  composed with `txn_to_text` becomes a structural conversion from a
  generated transaction to an `Entry`, and `ESCAPED_STRING` tokens carry
  their decoded values (so `json.dumps`/`json.loads` are the identity in
  the model).  Beancount `DATE` tokens are canonical `YYYY-MM-DD` strings,
  so `parse_date` composed with `str` is also the identity.
- Fallible Python code (pydantic validation errors, `raise`, `TypeError`)
  returns `Except String`.
- Python's stable ascending `list.sort()` on strings is
  `List.insertionSort (· ≤ ·)` (all stable sorts under a total order agree).
-/

namespace Beanhub

/-- Model of `ImportOverrideFlag` from `data_types.py`. -/
inductive ImportOverrideFlag where
  | NONE
  | ALL
  | DATE
  | FLAG
  | NARRATION
  | PAYEE
  | HASHTAGS
  | LINKS
  | POSTINGS
deriving DecidableEq, Repr

/-- Model of the `ImportOverrideFlag(value)` enum-by-value lookup: maps the
lowercase string values from `data_types.py` to flags, `none` when the token
is unknown (Python raises `ValueError`). -/
def ImportOverrideFlag.ofString (s : String) : Option ImportOverrideFlag :=
  if s = "none" then some .NONE
  else if s = "all" then some .ALL
  else if s = "date" then some .DATE
  else if s = "flag" then some .FLAG
  else if s = "narration" then some .NARRATION
  else if s = "payee" then some .PAYEE
  else if s = "hashtags" then some .HASHTAGS
  else if s = "links" then some .LINKS
  else if s = "postings" then some .POSTINGS
  else none

/-- Helper for `pySplit`: split a character list on a separator character. -/
def splitChars (sep : Char) : List Char → List (List Char)
  | [] => [[]]
  | c :: cs =>
    let r := splitChars sep cs
    if c == sep then [] :: r
    else
      match r with
      | h :: t => (c :: h) :: t
      | [] => [[c]]

/-- Model of Python's `str.split` with a one-character separator (as used by
`parse_override_flags`, which splits on `","`): `"".split(",") == [""]`,
`"a,,b".split(",") == ["a", "", "b"]`. -/
def pySplit (sep : Char) (s : String) : List String :=
  (splitChars sep s.data).map (fun l => ⟨l⟩)

/-- Helper modelling Python's `map(f, parts)` drained into a collection when
`f` may raise: the result is `none` as soon as any element fails. -/
def mapOptions (f : α → Option β) : List α → Option (List β)
  | [] => some []
  | a :: as =>
    match f a, mapOptions f as with
    | some b, some bs => some (b :: bs)
    | _, _ => none

/-- Model of `parse_override_flags` from `post_processor.py`: split on `,`,
map each part through the enum-by-value lookup (a `ValueError`, i.e. any
unknown token, yields `None` with a warning), then reject sets in which
`NONE` or `ALL` co-occur with any other flag. -/
def parse_override_flags (value : String) : Option (Finset ImportOverrideFlag) :=
  match mapOptions ImportOverrideFlag.ofString (pySplit ',' value) with
  | none => none
  | some flagList =>
    if (ImportOverrideFlag.ALL ∈ flagList.toFinset ∨ ImportOverrideFlag.NONE ∈ flagList.toFinset)
        ∧ 1 < flagList.toFinset.card
    then none
    else some flagList.toFinset

/-- Model of `Amount` from `data_types.py` (both fields are required). -/
structure Amount where
  number : String
  currency : String
deriving DecidableEq, Repr

/-- Model of `GeneratedPosting` from `data_types.py`. -/
structure GeneratedPosting where
  account : String
  amount : Option Amount := none
  price : Option Amount := none
  cost : Option String := none
deriving DecidableEq, Repr

/-- Model of `MetadataItem` from `data_types.py`. -/
structure MetadataItem where
  name : String
  value : String
deriving DecidableEq, Repr

/-- Model of `GeneratedTransaction` from `data_types.py`.  Fields without an
`Option` are required by the pydantic model: passing `None` for them raises a
`ValidationError` (modelled at the construction sites). -/
structure GeneratedTransaction where
  file : String
  id : String
  sources : Option (List String) := none
  date : String
  flag : String
  narration : String
  payee : Option String := none
  tags : Option (List String) := none
  links : Option (List String) := none
  metadata : Option (List MetadataItem) := none
  postings : List GeneratedPosting
deriving DecidableEq, Repr

/-- Model of `DeletedTransaction` from `data_types.py`. -/
structure DeletedTransaction where
  id : String
deriving DecidableEq, Repr

/-- Model of `BeancountTransaction` from `data_types.py`; `file` is the
`pathlib.Path` as a string. -/
structure BeancountTransaction where
  file : String
  lineno : Nat
  id : String
  override : Option (Finset ImportOverrideFlag) := none
deriving DecidableEq

/-- Model of `TransactionUpdate` from `data_types.py`. -/
structure TransactionUpdate where
  txn : GeneratedTransaction
  override : Option (Finset ImportOverrideFlag) := none
deriving DecidableEq

/-- Model of `ChangeSet` from `data_types.py`.  The Python `update` field is a
`dict[int, TransactionUpdate]`; it is modelled as its association list in
insertion order (assignment to an existing key updates in place, a new key is
appended — see `dictAssign`). -/
structure ChangeSet where
  remove : List BeancountTransaction
  update : List (Nat × TransactionUpdate)
  add : List GeneratedTransaction
  dangling : Option (List BeancountTransaction) := none
deriving DecidableEq

/- `collections.defaultdict(list)` and `dict` machinery used by
`compute_changes`.  A defaultdict keyed by file path is an association list in
key-insertion order; appending to `dd[k]` appends at the key's entry. -/

/-- Model of `defaultdict(list)[k].append(v)`. -/
def ddAppend {β : Type} (m : List (String × List β)) (k : String) (v : β) :
    List (String × List β) :=
  match m with
  | [] => [(k, [v])]
  | (k0, vs) :: rest =>
    if k0 = k then (k0, vs ++ [v]) :: rest else (k0, vs) :: ddAppend rest k v

/-- Model of `defaultdict(list)[k]` as a read: the stored list, `[]` when the
key is absent. -/
def ddGet {β : Type} (m : List (String × List β)) (k : String) : List β :=
  match m with
  | [] => []
  | (k0, vs) :: rest => if k0 = k then vs else ddGet rest k

/-- Model of Python `dict` assignment `d[k] = v` on an association list:
an existing key is updated in place, a new key is appended. -/
def dictAssign {β : Type} (d : List (Nat × β)) (k : Nat) (v : β) : List (Nat × β) :=
  match d with
  | [] => [(k, v)]
  | (k0, v0) :: rest =>
    if k0 = k then (k0, v) :: rest else (k0, v0) :: dictAssign rest k v

/-- Model of `defaultdict(dict)[k1][k2] = v` used for `to_update`. -/
def ddAssign (m : List (String × List (Nat × TransactionUpdate))) (k : String)
    (ln : Nat) (v : TransactionUpdate) : List (String × List (Nat × TransactionUpdate)) :=
  match m with
  | [] => [(k, [(ln, v)])]
  | (k0, d) :: rest =>
    if k0 = k then (k0, dictAssign d ln v) :: rest else (k0, d) :: ddAssign rest k ln v

/-- Model of building a Python `dict` by comprehension `{key txn: txn for txn
in txns}` and reading it with `.get`: the last binding for a key wins. -/
def pyDictGet {β : Type} (pairs : List (String × β)) (k : String) : Option β :=
  (pairs.reverse.find? (fun p => p.1 = k)).map Prod.snd

/-- Loop body of the first `for txn in imported_txns` loop of
`compute_changes` (`post_processor.py`): accumulates `(to_remove,
dangling_txns)`.  `resolve` models `pathlib.Path.resolve` and `join` models
the `/` path join; both are oracles. -/
def importedStep (resolve : String → String) (join : String → String → String)
    (work_dir : String) (deleted_ids : Finset String)
    (genById : String → Option GeneratedTransaction)
    (st : List (String × List BeancountTransaction) × List (String × List BeancountTransaction))
    (txn : BeancountTransaction) :
    List (String × List BeancountTransaction) × List (String × List BeancountTransaction) :=
  if txn.id ∈ deleted_ids then (ddAppend st.1 txn.file txn, st.2)
  else
    match genById txn.id with
    | some generated_txn =>
      if resolve txn.file ≠ resolve (join work_dir generated_txn.file)
      then (ddAppend st.1 txn.file txn, st.2)
      else st
    | none =>
      if txn.override = none then (st.1, ddAppend st.2 txn.file txn) else st

/-- Loop body of the second `for txn in generated_txns` loop of
`compute_changes`: accumulates `(to_update, to_add)`. -/
def generatedStep (resolve : String → String) (join : String → String → String)
    (work_dir : String) (deleted_ids : Finset String)
    (impById : String → Option BeancountTransaction)
    (st : List (String × List (Nat × TransactionUpdate)) × List (String × List GeneratedTransaction))
    (txn : GeneratedTransaction) :
    List (String × List (Nat × TransactionUpdate)) × List (String × List GeneratedTransaction) :=
  if txn.id ∈ deleted_ids then st
  else
    let generated_file := resolve (join work_dir txn.file)
    match impById txn.id with
    | some imported_txn =>
      if resolve imported_txn.file = generated_file
      then (ddAssign st.1 generated_file imported_txn.lineno ⟨txn, imported_txn.override⟩, st.2)
      else (st.1, ddAppend st.2 generated_file txn)
    | none => (st.1, ddAppend st.2 generated_file txn)

/-- Model of `compute_changes` from `post_processor.py`.  The returned Python
`dict[pathlib.Path, ChangeSet]` is modelled as a lookup function whose domain
is the union of the keys of the four per-file collections. -/
def compute_changes (resolve : String → String) (join : String → String → String)
    (generated_txns : List GeneratedTransaction)
    (imported_txns : List BeancountTransaction)
    (work_dir : String)
    (deleted_txns : Option (List DeletedTransaction)) :
    String → Option ChangeSet :=
  let genById := pyDictGet (generated_txns.map (fun t => (t.id, t)))
  let impById := pyDictGet (imported_txns.map (fun t => (t.id, t)))
  let deleted_ids := ((deleted_txns.getD []).map (fun t => t.id)).toFinset
  let rd := imported_txns.foldl (importedStep resolve join work_dir deleted_ids genById) ([], [])
  let ua := generated_txns.foldl (generatedStep resolve join work_dir deleted_ids impById) ([], [])
  let to_remove := rd.1
  let dangling_txns := rd.2
  let to_update := ua.1
  let to_add := ua.2
  let all_files := to_remove.map Prod.fst ++ to_add.map Prod.fst
      ++ to_update.map Prod.fst ++ dangling_txns.map Prod.fst
  fun file_path =>
    if file_path ∈ all_files then
      some { remove := ddGet to_remove file_path
             update := ddGet to_update file_path
             add := ddGet to_add file_path
             dangling := some (ddGet dangling_txns file_path) }
    else none

/- Model of the beancount parse-tree fragments that `update_transaction`,
`extract_txn_statement`, `gen_txn_statement` and `to_parser_entry ∘
txn_to_text` manipulate.  A `txn` statement subtree is flattened to its token
values: `ESCAPED_STRING` tokens carry their decoded values, the `DATE` token
its canonical string, and `annotations` is the list of annotation token
values (each still carrying its leading `#` or `^`), `none` when the
annotations child is absent.  `meta.line` is the `line` field. -/
structure Statement where
  date : String
  flag : String
  payee : Option String
  narration : String
  annotations : Option (List String)
  line : Nat
deriving DecidableEq, Repr

/-- Model of the `Entry` named tuple from `beancount_parser.data_types`
restricted to the fields `update_transaction` reads or replaces (`statement`,
`postings`) plus the fields `_replace` carries over unchanged (`comments`,
`metadata`); postings and metadata are carried structurally. -/
structure Entry where
  comments : List String
  statement : Statement
  metadata : List MetadataItem
  postings : List GeneratedPosting
deriving DecidableEq, Repr

/-- Model of `TransactionStatement` from `data_types.py`; the `date` is its
canonical string form. -/
structure TransactionStatement where
  date : String
  flag : String
  payee : Option String
  narration : String
  hashtags : Option (List String) := none
  links : Option (List String) := none
deriving DecidableEq, Repr

/-- Model of Python's `str.startswith` (written over the character lists). -/
def charsStart : List Char → List Char → Bool
  | [], _ => true
  | _ :: _, [] => false
  | p :: ps, c :: cs => p == c && charsStart ps cs

/-- Test whether `s` starts with `p` (Python `s.startswith(p)`). -/
def strStarts (s p : String) : Bool :=
  charsStart p.data s.data

/-- Lexicographic comparison of character lists by code point, the order
Python uses to compare strings. -/
def charListLe : List Char → List Char → Bool
  | [], _ => true
  | _ :: _, [] => false
  | a :: as, b :: bs =>
    if a.toNat < b.toNat then true
    else if b.toNat < a.toNat then false
    else charListLe as bs

/-- Python's string order as a proposition. -/
def StrLe (a b : String) : Prop :=
  charListLe a.data b.data = true

instance : DecidableRel StrLe := fun _ _ => instDecidableEqBool _ _

instance : IsTotal String StrLe := ⟨by
  suffices h : ∀ x y : List Char, charListLe x y = true ∨ charListLe y x = true by
    intro a b
    exact h a.data b.data
  intro x
  induction x with
  | nil => intro y; exact Or.inl rfl
  | cons a as ih =>
    intro y
    cases y with
    | nil => exact Or.inr rfl
    | cons b bs =>
      by_cases h1 : a.toNat < b.toNat
      · exact Or.inl (by simp [charListLe, h1])
      · by_cases h2 : b.toNat < a.toNat
        · exact Or.inr (by simp [charListLe, h2])
        · rcases ih bs with h | h
          · exact Or.inl (by simp [charListLe, h1, h2, h])
          · exact Or.inr (by simp [charListLe, h1, h2, h])⟩

instance : IsTrans String StrLe := ⟨by
  suffices h : ∀ x y z : List Char,
      charListLe x y = true → charListLe y z = true → charListLe x z = true by
    intro a b c hab hbc
    exact h a.data b.data c.data hab hbc
  intro x
  induction x with
  | nil => intro y z _ _; rfl
  | cons a as ih =>
    intro y z hxy hyz
    cases y with
    | nil => simp [charListLe] at hxy
    | cons b bs =>
      cases z with
      | nil => simp [charListLe] at hyz
      | cons c cs =>
        simp only [charListLe] at hxy hyz ⊢
        by_cases h1 : a.toNat < b.toNat
        · by_cases h2 : b.toNat < c.toNat
          · simp [Nat.lt_trans h1 h2]
          · by_cases h3 : c.toNat < b.toNat
            · rw [if_neg h2, if_pos h3] at hyz
              cases hyz
            · have hac : a.toNat < c.toNat := by omega
              simp [hac]
        · by_cases h2 : b.toNat < a.toNat
          · rw [if_neg h1, if_pos h2] at hxy
            cases hxy
          · have hab2 : a.toNat = b.toNat := by omega
            rw [if_neg h1, if_neg h2] at hxy
            by_cases h3 : b.toNat < c.toNat
            · have hac : a.toNat < c.toNat := by omega
              simp [hac]
            · by_cases h4 : c.toNat < b.toNat
              · rw [if_neg h3, if_pos h4] at hyz
                cases hyz
              · rw [if_neg h3, if_neg h4] at hyz
                have hn1 : ¬ a.toNat < c.toNat := by omega
                have hn2 : ¬ c.toNat < a.toNat := by omega
                rw [if_neg hn1, if_neg hn2]
                exact ih bs cs hxy hyz⟩

/-- Model of Python's in-place `list.sort()` on strings: stable ascending
sort; any correct sort under the total lexicographic order agrees with it. -/
def pySort (l : List String) : List String :=
  List.insertionSort StrLe l

/-- Model of `extract_txn_statement` from `post_processor.py`: read the six
header attributes out of a `txn` statement subtree; annotation values are
split into sorted links (`^`-prefixed) and sorted hashtags (`#`-prefixed);
both are `None` when the annotations child is absent. -/
def extract_txn_statement (s : Statement) : TransactionStatement :=
  match s.annotations with
  | none =>
    { date := s.date, flag := s.flag, payee := s.payee, narration := s.narration
      hashtags := none, links := none }
  | some annotation_values =>
    { date := s.date, flag := s.flag, payee := s.payee, narration := s.narration
      hashtags := some (pySort (annotation_values.filter (fun v => strStarts v "#")))
      links := some (pySort (annotation_values.filter (fun v => strStarts v "^"))) }

/-- Model of `gen_annotations` from `post_processor.py`. -/
def gen_annotations (hashtags : Option (List String)) (links : Option (List String)) :
    Option (List String) :=
  match hashtags, links with
  | none, none => none
  | _, _ => some (hashtags.getD [] ++ links.getD [])

/-- Model of `gen_txn_statement` from `post_processor.py`; the fresh tree's
`meta.line` is unset (modelled as `0`) until the caller assigns it. -/
def gen_txn_statement (ts : TransactionStatement) : Statement :=
  { date := ts.date, flag := ts.flag, payee := ts.payee, narration := ts.narration
    annotations := gen_annotations ts.hashtags ts.links, line := 0 }

/-- Model of `to_parser_entry(parser, txn_to_text(txn), lineno)`: `txn_to_text`
prints the generated transaction and `to_parser_entry` parses it back, with
parse inverting print (the parser/printer pair is external to this
repository).  The `ValueError` for reserved metadata names raised inside
`txn_to_text` is kept.  Annotation tokens carry the printed `#`/`^`
prefixes; the parsed entry carries the `import-id` metadata line, the
optional `import-src` line (the sources joined by `:`), and the extra
metadata items, in print order. -/
def txnToEntry (txn : GeneratedTransaction) (lineno : Nat) : Except String Entry :=
  if (txn.metadata.getD []).any
      (fun item => item.name = "import-id" ∨ item.name = "import-src") then
    Except.error "Metadata item name is reserved for beanhub-import usage"
  else
    let anns := (txn.tags.getD []).map (fun t => "#" ++ t)
        ++ (txn.links.getD []).map (fun t => "^" ++ t)
    Except.ok
      { comments := []
        statement :=
          { date := txn.date, flag := txn.flag, payee := txn.payee
            narration := txn.narration
            annotations := if anns.isEmpty then none else some anns
            line := lineno }
        metadata := ⟨"import-id", txn.id⟩ ::
          (match txn.sources with
            | some sources => [⟨"import-src", String.intercalate ":" sources⟩]
            | none => []) ++ txn.metadata.getD []
        postings := txn.postings }

/-- Finset of the six header override flags tested by `update_transaction`. -/
def headerFlags : Finset ImportOverrideFlag :=
  {ImportOverrideFlag.DATE, ImportOverrideFlag.FLAG, ImportOverrideFlag.PAYEE,
   ImportOverrideFlag.NARRATION, ImportOverrideFlag.HASHTAGS, ImportOverrideFlag.LINKS}

/-- Model of `update_transaction` from `post_processor.py`.  `none` or `ALL`
in the override set yields the freshly rendered entry; `NONE` yields the
existing entry; otherwise the header statement is regenerated with the
flagged attributes taken from the new statement (preserving the existing
line number) and `POSTINGS` swaps in the new posting list. -/
def update_transaction (entry : Entry) (transaction_update : TransactionUpdate)
    (lineno : Nat) : Except String Entry := do
  let new_entry ← txnToEntry transaction_update.txn lineno
  match transaction_update.override with
  | none => return new_entry
  | some ov =>
    if ImportOverrideFlag.ALL ∈ ov then
      return new_entry
    else if ImportOverrideFlag.NONE ∈ ov then
      return entry
    else
      let entry1 :=
        if headerFlags ∩ ov ≠ ∅ then
          let txn_statement := extract_txn_statement entry.statement
          let new_txn_statement := extract_txn_statement new_entry.statement
          let replacement_statement := gen_txn_statement
            { date := if ImportOverrideFlag.DATE ∈ ov
                then new_txn_statement.date else txn_statement.date
              flag := if ImportOverrideFlag.FLAG ∈ ov
                then new_txn_statement.flag else txn_statement.flag
              payee := if ImportOverrideFlag.PAYEE ∈ ov
                then new_txn_statement.payee else txn_statement.payee
              narration := if ImportOverrideFlag.NARRATION ∈ ov
                then new_txn_statement.narration else txn_statement.narration
              hashtags := if ImportOverrideFlag.HASHTAGS ∈ ov
                then new_txn_statement.hashtags else txn_statement.hashtags
              links := if ImportOverrideFlag.LINKS ∈ ov
                then new_txn_statement.links else txn_statement.links }
          { entry with statement :=
              { replacement_statement with line := entry.statement.line } }
        else entry
      if ImportOverrideFlag.POSTINGS ∈ ov then
        return { entry1 with postings := new_entry.postings }
      else
        return entry1

/-- Concrete generated transaction used to evaluate the override
discipline. -/
def c1Txn : GeneratedTransaction :=
  ⟨"out.bean", "id1", some ["s.csv"], "2024-01-02", "*", "NEW", none, some ["t"],
    none, none, [⟨"Assets:A", none, none, none⟩]⟩

/-- Concrete existing ledger entry used to evaluate the override
discipline. -/
def c1Entry : Entry :=
  ⟨[], ⟨"2024-01-01", "!", some "P", "OLD", some ["#x", "^l"], 42⟩,
    [⟨"import-id", "id1"⟩], [⟨"Assets:B", none, none, none⟩]⟩

/-- Concrete transaction update carrying a `NARRATION, POSTINGS` override. -/
def c1Update : TransactionUpdate :=
  ⟨c1Txn, some {ImportOverrideFlag.NARRATION, ImportOverrideFlag.POSTINGS}⟩

/-- Rendering of `c1Txn` as a parsed entry at line 42. -/
def c1New : Entry :=
  ⟨[], ⟨"2024-01-02", "*", none, "NEW", some ["#t"], 42⟩,
    [⟨"import-id", "id1"⟩, ⟨"import-src", "s.csv"⟩], [⟨"Assets:A", none, none, none⟩]⟩

/-- Merged entry produced by `update_transaction c1Entry c1Update 42`. -/
def c1Res : Entry :=
  ⟨[], ⟨"2024-01-01", "!", some "P", "NEW", some ["#x", "^l"], 42⟩,
    [⟨"import-id", "id1"⟩], [⟨"Assets:A", none, none, none⟩]⟩

/-- Model of the caller-visible effect of `apply_change_set`
(`post_processor.py`) on its `change_set` argument.  In the source,
`txns_to_remove = change_set.remove` binds the caller's list object and
`txns_to_remove += change_set.dangling` (reached when `remove_dangling` is
true and `dangling is not None`) extends that aliased list in place, so the
caller's `change_set.remove` grows by the dangling entries.  The ledger tree
is deep-copied (`copy.deepcopy(tree)`) before any mutation, so the tree
argument itself is never modified; in this state-passing model the function
returns the post-call state of the change set. -/
def apply_change_set_changeset_after (change_set : ChangeSet)
    (remove_dangling : Bool) : ChangeSet :=
  if remove_dangling then
    match change_set.dangling with
    | some dangling => { change_set with remove := change_set.remove ++ dangling }
    | none => change_set
  else change_set

/-- Predicate transformer: every value stored anywhere in a defaultdict model
satisfies `P`. -/
def DDAll {β : Type} (P : β → Prop) (m : List (String × List β)) : Prop :=
  ∀ kv ∈ m, ∀ x ∈ kv.2, P x

/- Embedding of `processor.py`.  The sandboxed Jinja2 engine is an oracle
`TemplateEnv`; regular-expression matching (`re.match`) is an oracle
`ReMatch` taking the ignore-case flag, the pattern and the value. -/

/-- Model of the Python values stored in a rendering context or a match-rule
variable binding (`dict[str, str | int | None]`). -/
inductive Value where
  | str (s : String)
  | int (n : Int)
  | null
deriving DecidableEq, Repr

/-- Model of a Python dict used as a template-rendering context. -/
def Ctx : Type := List (String × Value)

instance : DecidableEq Ctx := fun a b => instDecidableEqList a b

/-- Model of the Jinja2 template engine: template text and context to
rendered string. -/
def TemplateEnv : Type := String → Ctx → String

/-- Model of `re.match` (ignore-case flag, pattern, value). -/
def ReMatch : Type := Bool → String → String → Bool

/-- Model of Python's `dict` union `a | b`: keys of `a` in order with values
overridden by `b`, followed by the keys only in `b`. -/
def dictMerge (a b : Ctx) : Ctx :=
  a.map (fun p =>
    match b.find? (fun q => q.1 == p.1) with
    | some q => (p.1, q.2)
    | none => p)
  ++ b.filter (fun q => !(a.any (fun p => p.1 == q.1)))

/-- Model of the `beanhub_extract` `Transaction` record (external to this
repository).  String-typed and stringly-rendered fields are `Option String`
(dates, decimals and timestamps by their canonical string forms, as they only
flow into the template-engine oracle); only `extractor` is always set. -/
structure Transaction where
  extractor : String
  file : Option String := none
  lineno : Option Int := none
  reversed_lineno : Option Int := none
  transaction_id : Option String := none
  date : Option String := none
  post_date : Option String := none
  timestamp : Option String := none
  timezone : Option String := none
  desc : Option String := none
  bank_desc : Option String := none
  amount : Option String := none
  currency : Option String := none
  category : Option String := none
  subcategory : Option String := none
  status : Option String := none
  type : Option String := none
  source_account : Option String := none
  dest_account : Option String := none
  note : Option String := none
  reference : Option String := none
  payee : Option String := none
  gl_code : Option String := none
  name_on_card : Option String := none
  last_four_digits : Option String := none
deriving DecidableEq, Repr

/-- Conversion of an optional string field to a context value. -/
def optVal : Option String → Value
  | some s => .str s
  | none => .null

/-- Conversion of an optional integer field to a context value. -/
def optIntVal : Option Int → Value
  | some n => .int n
  | none => .null

/-- Model of `dataclasses.asdict(txn)` plus the `omit` sentinel binding
(`txn_ctx` in `process_transaction`). -/
def mkTxnCtx (txn : Transaction) (omit_token : String) : Ctx :=
  [("extractor", .str txn.extractor), ("file", optVal txn.file),
    ("lineno", optIntVal txn.lineno),
    ("reversed_lineno", optIntVal txn.reversed_lineno),
    ("transaction_id", optVal txn.transaction_id), ("date", optVal txn.date),
    ("post_date", optVal txn.post_date), ("timestamp", optVal txn.timestamp),
    ("timezone", optVal txn.timezone), ("desc", optVal txn.desc),
    ("bank_desc", optVal txn.bank_desc), ("amount", optVal txn.amount),
    ("currency", optVal txn.currency), ("category", optVal txn.category),
    ("subcategory", optVal txn.subcategory), ("status", optVal txn.status),
    ("type", optVal txn.type), ("source_account", optVal txn.source_account),
    ("dest_account", optVal txn.dest_account), ("note", optVal txn.note),
    ("reference", optVal txn.reference), ("payee", optVal txn.payee),
    ("gl_code", optVal txn.gl_code), ("name_on_card", optVal txn.name_on_card),
    ("last_four_digits", optVal txn.last_four_digits),
    ("omit", .str omit_token)]

/-- Model of the `StrMatch` union from `data_types.py`; a bare string is a
regex pattern. -/
inductive StrMatch where
  | regex (pattern : String)
  | exact (equals : String)
  | hasPre (p : String)
  | hasSuf (s : String)
  | contains (c : String)
  | oneOf (one_of : List String) (regexFlag : Bool) (ignoreCase : Bool)
deriving DecidableEq, Repr

/-- Helper for `strHas`: does the haystack start with the needle? -/
def listStarts : List Char → List Char → Bool
  | _, [] => true
  | [], _ :: _ => false
  | c :: cs, n :: ns => n == c && listStarts cs ns

/-- Model of Python's substring test `c in v` (over the character lists). -/
def listHasSub : List Char → List Char → Bool
  | [], n => n.isEmpty
  | h :: t, n => listStarts (h :: t) n || listHasSub t n

/-- Model of Python's `c in v` on strings. -/
def strHas (v c : String) : Bool :=
  listHasSub v.data c.data

/-- Model of `match_str` from `processor.py`: a `None` value never matches;
a bare string is an anchored regex; the other variants are literal string
operations; `one_of` folds case when requested and may treat its elements as
patterns. -/
def match_str (reMatch : ReMatch) (pattern : StrMatch) (value : Option String) : Bool :=
  match value with
  | none => false
  | some v =>
    match pattern with
    | .regex p => reMatch false p v
    | .exact e => v == e
    | .hasPre p => strStarts v p
    | .hasSuf s =>
      -- Python `str.endswith`
      listStarts v.data.reverse s.data.reverse
    | .contains c => strHas v c
    | .oneOf one_of regexFlag ignoreCase =>
      if !regexFlag then
        if !ignoreCase then one_of.contains v
        else (one_of.map (fun i => i.toLower)).contains v.toLower
      else one_of.any (fun item => reMatch ignoreCase item v)

/-- Model of `SimpleTxnMatchRule` from `data_types.py`. -/
structure SimpleTxnMatchRule where
  extractor : Option StrMatch := none
  file : Option StrMatch := none
  date : Option StrMatch := none
  post_date : Option StrMatch := none
  timezone : Option StrMatch := none
  desc : Option StrMatch := none
  bank_desc : Option StrMatch := none
  currency : Option StrMatch := none
  category : Option StrMatch := none
  subcategory : Option StrMatch := none
  status : Option StrMatch := none
  type : Option StrMatch := none
  source_account : Option StrMatch := none
  dest_account : Option StrMatch := none
  note : Option StrMatch := none
  reference : Option StrMatch := none
  payee : Option StrMatch := none
  gl_code : Option StrMatch := none
  name_on_card : Option StrMatch := none
  last_four_digits : Option StrMatch := none
  transaction_id : Option StrMatch := none
deriving DecidableEq, Repr

/-- Helper for `match_transaction`: a field with no pattern passes. -/
def checkField (reMatch : ReMatch) (pattern : Option StrMatch)
    (value : Option String) : Bool :=
  match pattern with
  | none => true
  | some p => match_str reMatch p value

/-- Model of `match_transaction` from `processor.py`: every field with a
present pattern must pass `match_str` against the record's field. -/
def match_transaction (reMatch : ReMatch) (txn : Transaction)
    (rule : SimpleTxnMatchRule) : Bool :=
  checkField reMatch rule.extractor (some txn.extractor)
  && checkField reMatch rule.file txn.file
  && checkField reMatch rule.date txn.date
  && checkField reMatch rule.post_date txn.post_date
  && checkField reMatch rule.timezone txn.timezone
  && checkField reMatch rule.desc txn.desc
  && checkField reMatch rule.bank_desc txn.bank_desc
  && checkField reMatch rule.currency txn.currency
  && checkField reMatch rule.category txn.category
  && checkField reMatch rule.subcategory txn.subcategory
  && checkField reMatch rule.status txn.status
  && checkField reMatch rule.type txn.type
  && checkField reMatch rule.source_account txn.source_account
  && checkField reMatch rule.dest_account txn.dest_account
  && checkField reMatch rule.note txn.note
  && checkField reMatch rule.reference txn.reference
  && checkField reMatch rule.payee txn.payee
  && checkField reMatch rule.gl_code txn.gl_code
  && checkField reMatch rule.name_on_card txn.name_on_card
  && checkField reMatch rule.last_four_digits txn.last_four_digits
  && checkField reMatch rule.transaction_id txn.transaction_id

/-- Model of `TxnMatchVars` from `data_types.py`. -/
structure TxnMatchVars where
  cond : SimpleTxnMatchRule
  vars : Option (List (String × Value)) := none
deriving DecidableEq, Repr

/-- Model of `match_transaction_with_vars` from `processor.py`: the first
subrule whose `cond` matches and whose `common_condition` (when present) also
matches. -/
def match_transaction_with_vars (reMatch : ReMatch) (txn : Transaction)
    (rules : List TxnMatchVars)
    (common_condition : Option SimpleTxnMatchRule) : Option TxnMatchVars :=
  match rules with
  | [] => none
  | rule :: rest =>
    if match_transaction reMatch txn rule.cond
        && (match common_condition with
            | none => true
            | some cc => match_transaction reMatch txn cc) then
      some rule
    else
      match_transaction_with_vars reMatch txn rest common_condition

/-- Model of `AmountTemplate` from `data_types.py`. -/
structure AmountTemplate where
  number : Option String := none
  currency : Option String := none
deriving DecidableEq, Repr

/-- Model of `PostingTemplate` from `data_types.py`. -/
structure PostingTemplate where
  account : Option String := none
  amount : Option AmountTemplate := none
  price : Option AmountTemplate := none
  cost : Option String := none
deriving DecidableEq, Repr

/-- Model of `MetadataItemTemplate` from `data_types.py`. -/
structure MetadataItemTemplate where
  name : String
  value : String
deriving DecidableEq, Repr

/-- Model of `TransactionTemplate` from `data_types.py`. -/
structure TransactionTemplate where
  id : Option String := none
  date : Option String := none
  flag : Option String := none
  narration : Option String := none
  payee : Option String := none
  tags : Option (List String) := none
  links : Option (List String) := none
  metadata : Option (List MetadataItemTemplate) := none
  postings : Option (List PostingTemplate) := none
deriving DecidableEq, Repr

/-- Model of `DeleteTransactionTemplate` from `data_types.py`. -/
structure DeleteTransactionTemplate where
  id : Option String := none
deriving DecidableEq, Repr

/-- Model of `InputConfigDetails` from `data_types.py`; `appending_postings`
is the deprecated spelling of `append_postings`. -/
structure InputConfigDetails where
  extractor : Option String := none
  default_file : Option String := none
  prepend_postings : Option (List PostingTemplate) := none
  appending_postings : Option (List PostingTemplate) := none
  append_postings : Option (List PostingTemplate) := none
  default_txn : Option TransactionTemplate := none
deriving DecidableEq, Repr

/-- Model of the `Action` union from `data_types.py`. -/
inductive Action where
  | add_txn (file : Option String) (txn : TransactionTemplate)
  | del_txn (txn : Option DeleteTransactionTemplate)
  | ignore
deriving DecidableEq, Repr

/-- Model of the `match` field of `ImportRule`: a single rule map or a list
of condition-with-variables entries. -/
inductive RuleMatch where
  | single (m : SimpleTxnMatchRule)
  | multi (ms : List TxnMatchVars)
deriving DecidableEq, Repr

/-- Model of `ImportRule` from `data_types.py` (`match` is a Lean keyword,
hence `match_`). -/
structure ImportRule where
  name : Option String := none
  common_cond : Option SimpleTxnMatchRule := none
  match_ : RuleMatch
  actions : List Action
deriving DecidableEq, Repr

/-- Value of `DEFAULT_TXN_TEMPLATE["id"]` from `constants.py`. -/
def DEFAULT_TXN_TEMPLATE_id : String :=
  "\x7b\x7b file | as_posix_path \x7d\x7d:\x7b\x7b lineno \x7d\x7d"

/-- Value of `DEFAULT_TXN_TEMPLATE["date"]` from `constants.py`. -/
def DEFAULT_TXN_TEMPLATE_date : String := "\x7b\x7b date \x7d\x7d"

/-- Value of `DEFAULT_TXN_TEMPLATE["flag"]` from `constants.py`. -/
def DEFAULT_TXN_TEMPLATE_flag : String := "*"

/-- Value of `DEFAULT_TXN_TEMPLATE["narration"]` from `constants.py`. -/
def DEFAULT_TXN_TEMPLATE_narration : String :=
  "\x7b\x7b desc | default(bank_desc, true) \x7d\x7d"

/-- Model of `first_non_none` from `processor.py`. -/
def first_non_none {α : Type} (values : List (Option α)) : Option α :=
  values.findSome? id

/-- Model of the `render_str` closure inside `process_transaction`: build the
rendering context from the record context, the loop input variables and the
matched-rule variables, render, and turn a result equal to the omit sentinel
into `None`.  (In the source the `|=` updates alias `txn_ctx`; because each
call of `process_transaction` re-merges the same dictionaries before every
render and the matched rule is fixed once found, the in-place update is
observationally equivalent to this fresh merge.) -/
def renderCtx (txnCtx : Ctx) (input_vars matched_vars : Option Ctx) : Ctx :=
  let ctx1 := match input_vars with
    | some iv => dictMerge txnCtx iv
    | none => txnCtx
  match matched_vars with
  | some mv => dictMerge ctx1 mv
  | none => ctx1

/-- Rendering of one optional template string under the merged context; a
result equal to the omit sentinel becomes `None`. -/
def render_str (env : TemplateEnv) (txnCtx : Ctx)
    (input_vars matched_vars : Option Ctx) (omit_token : String) :
    Option String → Option String
  | none => none
  | some value =>
    let result_value := env value (renderCtx txnCtx input_vars matched_vars)
    if result_value == omit_token then none else some result_value

/-- Model of the `process_links_or_tags` closure: render every element, drop
falsy results, and return `None` when nothing is left. -/
def process_links_or_tags (rf : Option String → Option String) :
    Option (List String) → Option (List String)
  | none => none
  | some links_or_tags =>
    let result := (links_or_tags.map (fun item => rf (some item))).filterMap
      (fun o => match o with
        | some s => if s.isEmpty then none else some s
        | none => none)
    if result.isEmpty then none else some result

/-- Pydantic required-field validation: `None` for a required string field
raises a `ValidationError`. -/
def req (o : Option String) (fld : String) : Except String String :=
  match o with
  | some s => Except.ok s
  | none => Except.error ("ValidationError: " ++ fld)

/-- Model of `generate_postings` from `processor.py`: render account, amount,
price and cost of every posting template; required sub-fields that render to
`None` raise a `ValidationError`. -/
def generate_postings (rf : Option String → Option String) :
    List PostingTemplate → Except String (List GeneratedPosting)
  | [] => Except.ok []
  | posting_template :: rest => do
    let amount ← match posting_template.amount with
      | some at1 => do
        let n ← req (rf at1.number) "Amount.number"
        let c ← req (rf at1.currency) "Amount.currency"
        Except.ok (some (⟨n, c⟩ : Amount))
      | none => Except.ok none
    let price ← match posting_template.price with
      | some pt => do
        let n ← req (rf pt.number) "Amount.number"
        let c ← req (rf pt.currency) "Amount.currency"
        Except.ok (some (⟨n, c⟩ : Amount))
      | none => Except.ok none
    let cost := match posting_template.cost with
      | some c => rf (some c)
      | none => none
    let account ← req (rf posting_template.account) "GeneratedPosting.account"
    let res ← generate_postings rf rest
    Except.ok (⟨account, amount, price, cost⟩ :: res)

/-- Model of the metadata-rendering loop of the `add_txn` branch: items whose
rendered name or value is falsy are dropped; an empty result is `None`. -/
def metaItemsRender (rf : Option String → Option String)
    (metadata : Option (List MetadataItemTemplate)) : Option (List MetadataItem) :=
  let generated := (metadata.getD []).filterMap (fun item =>
    match rf (some item.name), rf (some item.value) with
    | some n, some v =>
      if n.isEmpty || v.isEmpty then none else some (⟨n, v⟩ : MetadataItem)
    | _, _ => none)
  if generated.isEmpty then none else some generated

/-- Model of `UnprocessedTransaction` from `data_types.py` (a plain frozen
dataclass: no validation, so `import_id` may be `None` at runtime). -/
structure UnprocessedTransaction where
  import_id : Option String
  txn : Transaction
  output_file : Option String := none
  prepending_postings : Option (List GeneratedPosting) := none
  appending_postings : Option (List GeneratedPosting) := none
deriving DecidableEq, Repr

/-- An item yielded by the `process_transaction` generator. -/
inductive Emission where
  | gen (txn : GeneratedTransaction)
  | del (txn : DeletedTransaction)
deriving DecidableEq, Repr

/-- Model of the `add_txn` branch of the action loop of
`process_transaction` (`processor.py`, lines 225-302): template-field
priority chains, the posting-template composition (prepend, then the
action's or default transaction's postings, then the deprecated
`appending_postings` if present — with a `DeprecationWarning` — else
`append_postings`), tags/links/metadata rendering, and the construction of
the `GeneratedTransaction` with its pydantic validation. -/
def emitAddTxn (rf : Option String → Option String)
    (default_txn : Option TransactionTemplate)
    (prepend_postings appending_postings append_postings : Option (List PostingTemplate))
    (default_file default_import_id : Option String)
    (txn_file : Option String)
    (action_file : Option String) (att : TransactionTemplate) :
    Except String GeneratedTransaction :=
  let txn_id := first_non_none [att.id, default_txn.bind (fun t => t.id),
    default_import_id, some DEFAULT_TXN_TEMPLATE_id]
  let tv_date := first_non_none [att.date, default_txn.bind (fun t => t.date),
    some DEFAULT_TXN_TEMPLATE_date]
  let tv_flag := first_non_none [att.flag, default_txn.bind (fun t => t.flag),
    some DEFAULT_TXN_TEMPLATE_flag]
  let tv_narration := first_non_none [att.narration,
    default_txn.bind (fun t => t.narration), some DEFAULT_TXN_TEMPLATE_narration]
  let tv_payee := first_non_none [att.payee, default_txn.bind (fun t => t.payee)]
  let posting_templates :=
    (prepend_postings.getD [])
    ++ (match att.postings with
        | some ps => ps
        | none => (default_txn.bind (fun t => t.postings)).getD [])
    ++ (match appending_postings with
        | some aps => aps
        | none => append_postings.getD [])
  let generated_tags := process_links_or_tags rf att.tags
  let generated_links := process_links_or_tags rf att.links
  let generated_metadata := metaItemsRender rf att.metadata
  do
    let generated_postings ← generate_postings rf posting_templates
    let output_file ← match first_non_none [action_file, default_file] with
      | some f => Except.ok f
      | none => Except.error "Output file not defined when generating transaction"
    let file ← req (rf (some output_file)) "GeneratedTransaction.file"
    let id ← req (rf txn_id) "GeneratedTransaction.id"
    let date ← req (rf tv_date) "GeneratedTransaction.date"
    let flag ← req (rf tv_flag) "GeneratedTransaction.flag"
    let narration ← req (rf tv_narration) "GeneratedTransaction.narration"
    let sources ← match txn_file with
      | some f => Except.ok [f]
      | none => Except.error "ValidationError: GeneratedTransaction.sources"
    Except.ok
      { file := file, id := id, sources := some sources, date := date, flag := flag
        narration := narration, payee := rf tv_payee, tags := generated_tags
        links := generated_links, metadata := generated_metadata
        postings := generated_postings }

/-- Model of the action loop of `process_transaction`: returns the emissions
in order, whether any action marked the record processed, and whether an
`ignore` action returned early. -/
def runActions (rf : Option String → Option String)
    (default_txn : Option TransactionTemplate)
    (prepend_postings appending_postings append_postings : Option (List PostingTemplate))
    (default_file default_import_id : Option String)
    (txn_file : Option String) :
    List Action → Except String (List Emission × Bool × Bool)
  | [] => Except.ok ([], false, false)
  | action :: rest =>
    match action with
    | .ignore => Except.ok ([], false, true)
    | .del_txn dtt =>
      let txn_id := first_non_none [dtt.bind (fun t => t.id),
        default_txn.bind (fun t => t.id), default_import_id,
        some DEFAULT_TXN_TEMPLATE_id]
      match rf txn_id with
      | none => Except.error "ValidationError: DeletedTransaction.id"
      | some rid => do
        let (ems, _, early) ← runActions rf default_txn prepend_postings
          appending_postings append_postings default_file default_import_id txn_file rest
        Except.ok (Emission.del ⟨rid⟩ :: ems, true, early)
    | .add_txn action_file att => do
      let g ← emitAddTxn rf default_txn prepend_postings appending_postings
        append_postings default_file default_import_id txn_file action_file att
      let (ems, _, early) ← runActions rf default_txn prepend_postings
        appending_postings append_postings default_file default_import_id txn_file rest
      Except.ok (Emission.gen g :: ems, true, early)

/-- Model of the `if not processed` tail of `process_transaction`
(`processor.py`, lines 309-327): build the `UnprocessedTransaction`.  The
source contains a slip at line 320: under the `append_postings is not None`
guard it calls `generate_postings(prepend_postings, render_str)`, rendering
the prepend templates as the `appending_postings` of the result and raising
`TypeError` (iterating `None`) when `prepend_postings` is absent; this model
reproduces that behaviour faithfully. -/
def unprocessedResult (rf : Option String → Option String)
    (default_txn : Option TransactionTemplate)
    (prepend_postings append_postings : Option (List PostingTemplate))
    (default_file default_import_id : Option String)
    (txn : Transaction) : Except String UnprocessedTransaction := do
  let txn_id := first_non_none [default_txn.bind (fun t => t.id),
    default_import_id, some DEFAULT_TXN_TEMPLATE_id]
  let prepending_postings ← match prepend_postings with
    | some pp => (generate_postings rf pp).map some
    | none => Except.ok none
  let appending_postings ← match append_postings with
    | some _ =>
      match prepend_postings with
      | some pp => (generate_postings rf pp).map some
      | none => Except.error "TypeError: NoneType object is not iterable"
    | none => Except.ok none
  Except.ok ⟨rf txn_id, txn, rf default_file, prepending_postings, appending_postings⟩

/-- Rendering of a matched subrule's `vars` under the record context
(`processor.py`, lines 211-216): string values are rendered, other values
kept. -/
def renderMatchedVars (env : TemplateEnv) (txnCtx : Ctx)
    (vars : List (String × Value)) : Ctx :=
  vars.map (fun p =>
    match p.2 with
    | .str s => (p.1, Value.str (env s txnCtx))
    | v => (p.1, v))

/-- The code's criterion for a rule owning a record: a scalar match tests the
match map only; a list match tests each `cond` AND the `common_cond`. -/
def ruleMatches (reMatch : ReMatch) (txn : Transaction) (rule : ImportRule) : Bool :=
  match rule.match_ with
  | .single m => match_transaction reMatch txn m
  | .multi ms => (match_transaction_with_vars reMatch txn ms rule.common_cond).isSome

/-- The matched-variable binding the code installs for the owning rule. -/
def matchedVarsOf (env : TemplateEnv) (txnCtx : Ctx) (reMatch : ReMatch)
    (txn : Transaction) (rule : ImportRule) : Option Ctx :=
  match rule.match_ with
  | .single _ => none
  | .multi ms =>
    (match_transaction_with_vars reMatch txn ms rule.common_cond).map
      (fun m => renderMatchedVars env txnCtx (m.vars.getD []))

/-- The specification's criterion for a rule owning a record: `match` and
`common_cond` both satisfied (for a scalar match the code ignores
`common_cond`; it is only consulted in the list form). -/
def claimSatisfies (reMatch : ReMatch) (txn : Transaction) (rule : ImportRule) : Bool :=
  match rule.match_ with
  | .single m =>
    match_transaction reMatch txn m
    && (match rule.common_cond with
        | none => true
        | some cc => match_transaction reMatch txn cc)
  | .multi ms => (match_transaction_with_vars reMatch txn ms rule.common_cond).isSome

/-- Continuation of `process_transaction` once a rule has matched: run its
actions, and if none marked the record processed (and no `ignore` returned
early) fall through to the unprocessed-transaction tail with the matched
variables still bound. -/
def afterMatch (env : TemplateEnv) (txnCtx : Ctx) (input_vars : Option Ctx)
    (omit_token : String) (default_txn : Option TransactionTemplate)
    (prepend_postings appending_postings append_postings : Option (List PostingTemplate))
    (default_file default_import_id : Option String) (txn : Transaction)
    (matched_vars : Option Ctx) (actions : List Action) :
    Except String (List Emission × Option UnprocessedTransaction) := do
  let rf := render_str env txnCtx input_vars matched_vars omit_token
  let (ems, processed, early) ← runActions rf default_txn prepend_postings
    appending_postings append_postings default_file default_import_id txn.file actions
  if early then Except.ok (ems, none)
  else if processed then Except.ok (ems, none)
  else do
    let u ← unprocessedResult rf default_txn prepend_postings append_postings
      default_file default_import_id txn
    Except.ok (ems, some u)

/-- The rule loop of `process_transaction`: the first matching rule owns the
record; when no rule matches, the unprocessed-transaction tail runs with no
matched variables. -/
def procRules (env : TemplateEnv) (reMatch : ReMatch) (txnCtx : Ctx)
    (input_vars : Option Ctx) (omit_token : String)
    (default_txn : Option TransactionTemplate)
    (prepend_postings appending_postings append_postings : Option (List PostingTemplate))
    (default_file default_import_id : Option String) (txn : Transaction) :
    List ImportRule → Except String (List Emission × Option UnprocessedTransaction)
  | [] => do
    let u ← unprocessedResult (render_str env txnCtx input_vars none omit_token)
      default_txn prepend_postings append_postings default_file default_import_id txn
    Except.ok ([], some u)
  | import_rule :: rest =>
    match import_rule.match_ with
    | .multi ms =>
      match match_transaction_with_vars reMatch txn ms import_rule.common_cond with
      | none => procRules env reMatch txnCtx input_vars omit_token default_txn
          prepend_postings appending_postings append_postings default_file
          default_import_id txn rest
      | some matched =>
        afterMatch env txnCtx input_vars omit_token default_txn prepend_postings
          appending_postings append_postings default_file default_import_id txn
          (some (renderMatchedVars env txnCtx (matched.vars.getD [])))
          import_rule.actions
    | .single sm =>
      if match_transaction reMatch txn sm then
        afterMatch env txnCtx input_vars omit_token default_txn prepend_postings
          appending_postings append_postings default_file default_import_id txn
          none import_rule.actions
      else
        procRules env reMatch txnCtx input_vars omit_token default_txn
          prepend_postings appending_postings append_postings default_file
          default_import_id txn rest

/-- Model of `process_transaction` from `processor.py`.  The generator is
modelled as the list of its emissions paired with the optional
`UnprocessedTransaction` return value; raised exceptions are `Except.error`.
The `omit_token` parameter carries the run's omit sentinel (the source
defaults it to a fresh `uuid4` hex when absent). -/
def process_transaction (env : TemplateEnv) (reMatch : ReMatch)
    (import_rules : List ImportRule) (txn : Transaction)
    (input_config : Option InputConfigDetails) (omit_token : String)
    (default_import_id : Option String) (input_vars : Option Ctx) :
    Except String (List Emission × Option UnprocessedTransaction) :=
  let txnCtx := mkTxnCtx txn omit_token
  let default_txn := input_config.bind (fun c => c.default_txn)
  let prepend_postings := input_config.bind (fun c => c.prepend_postings)
  let appending_postings := input_config.bind (fun c => c.appending_postings)
  let append_postings := input_config.bind (fun c => c.append_postings)
  let default_file := input_config.bind (fun c => c.default_file)
  procRules env reMatch txnCtx input_vars omit_token default_txn prepend_postings
    appending_postings append_postings default_file default_import_id txn import_rules

/-- Model of the `SimpleFileMatch` union from `data_types.py`. -/
inductive SimpleFileMatch where
  | str (s : String)
  | exact (equals : String)
  | regex (r : String)
deriving DecidableEq, Repr

/-- Model of `FilterOperator` from `data_types.py`. -/
inductive FilterOperator where
  | equal
  | not_equal
  | greater
  | greater_equal
  | less
  | less_equal
deriving DecidableEq, Repr

/-- Enum-by-value lookup for `FilterOperator` (pydantic validates the rendered
`op` string against the enum values). -/
def FilterOperator.ofString : String → Option FilterOperator
  | "==" => some .equal
  | "!=" => some .not_equal
  | ">" => some .greater
  | ">=" => some .greater_equal
  | "<" => some .less
  | "<=" => some .less_equal
  | _ => none

/-- Model of `RawFilterFieldOperation` from `data_types.py`. -/
structure RawFilterFieldOperation where
  field : String
  op : String
  value : String
deriving DecidableEq, Repr

/-- Model of `FilterFieldOperation` from `data_types.py`. -/
structure FilterFieldOperation where
  field : String
  op : FilterOperator
  value : String
deriving DecidableEq, Repr

/-- Model of the `RawFilter` union (`str | list[RawFilterFieldOperation]`). -/
inductive RawFilter where
  | str (s : String)
  | list (ops : List RawFilterFieldOperation)
deriving DecidableEq, Repr

/-- Model of `InputConfig` from `data_types.py` (`match` is a Lean keyword,
hence `match_`); loop bindings are context dictionaries. -/
structure InputConfig where
  match_ : SimpleFileMatch
  config : Option InputConfigDetails := none
  filter : Option RawFilter := none
  loop : Option (List Ctx) := none
deriving DecidableEq

/-- Model of `RenderedInputConfig` from `processor.py`. -/
structure RenderedInputConfig where
  input_config : InputConfig
  filter : Option (List FilterFieldOperation) := none
  values : Option Ctx := none
deriving DecidableEq

/-- Sequential effectful map, modelling a Python loop that may raise. -/
def mapExcept {α β : Type} (f : α → Except String β) :
    List α → Except String (List β)
  | [] => Except.ok []
  | a :: as => do
    let b ← f a
    let bs ← mapExcept f as
    Except.ok (b :: bs)

/-- Model of `render_raw_filter_operation` from `processor.py`: render the
three fields, drop those rendering to the omit sentinel, and validate the
remainder as a `FilterFieldOperation` (missing fields or an unknown operator
raise a `ValidationError`). -/
def render_raw_filter_operation (rf : String → String) (omit_token : String)
    (operation : RawFilterFieldOperation) : Except String FilterFieldOperation :=
  let f := rf operation.field
  let o := rf operation.op
  let v := rf operation.value
  if f == omit_token || o == omit_token || v == omit_token then
    Except.error "ValidationError: missing FilterFieldOperation field"
  else
    match FilterOperator.ofString o with
    | some fo => Except.ok ⟨f, fo, v⟩
    | none => Except.error "ValidationError: FilterFieldOperation.op"

/-- Model of `eval_filter` from `processor.py`.  `literalFilters` is the
oracle for `FiltersAdapter.validate_python(ast.literal_eval(...))` applied to
the rendered string form (it may raise). -/
def eval_filter (rf : String → String)
    (literalFilters : String → Except String (List FilterFieldOperation))
    (omit_token : String) : RawFilter → Except String (Option (List FilterFieldOperation))
  | .str raw =>
    let filter_value := rf raw
    if filter_value == omit_token then Except.ok none
    else (literalFilters filter_value).map some
  | .list ops => (mapExcept (render_raw_filter_operation rf omit_token) ops).map some

/-- Model of `render_input_config_match` from `processor.py`. -/
def render_input_config_match (rf : String → String) :
    SimpleFileMatch → SimpleFileMatch
  | .str s => .str (rf s)
  | .exact e => .exact (rf e)
  | .regex r => .regex (rf r)

/-- Loop body of `expand_input_loops` for one loop binding: evaluate the
filter (when present) and render the file match and the extractor under the
binding merged over the omit binding; an extractor rendering to the omit
sentinel or empty becomes unspecified.  Reading `.extractor` off an absent
`config` raises `AttributeError` as in the source. -/
def expandLoopIter (env : TemplateEnv)
    (literalFilters : String → Except String (List FilterFieldOperation))
    (omit_token : String) (input_config : InputConfig) (values : Ctx) :
    Except String RenderedInputConfig := do
  let rf := fun value => env value (dictMerge [("omit", Value.str omit_token)] values)
  let evaluated_filter ← match input_config.filter with
    | some f => eval_filter rf literalFilters omit_token f
    | none => Except.ok none
  let rendered_match := render_input_config_match rf input_config.match_
  let config ← match input_config.config with
    | none => Except.error "AttributeError: NoneType object has no attribute extractor"
    | some c =>
      match c.extractor with
      | some e =>
        let r := rf e
        Except.ok (some
          { c with extractor := if r == omit_token || r.isEmpty then none else some r })
      | none => Except.ok (some c)
  Except.ok ⟨⟨rendered_match, config, none, none⟩, evaluated_filter, some values⟩

/-- Model of the per-binding loop of `expand_input_loops`. -/
def expandLoop (env : TemplateEnv)
    (literalFilters : String → Except String (List FilterFieldOperation))
    (omit_token : String) (input_config : InputConfig) :
    List Ctx → Except String (List RenderedInputConfig) :=
  mapExcept (expandLoopIter env literalFilters omit_token input_config)

/-- Expansion of a single `InputConfig` (the body of the outer loop of
`expand_input_loops`): no loop yields the configuration once (with the filter
evaluated under the omit-only context); an empty loop raises `ValueError`;
otherwise one rendered configuration per binding. -/
def expandOne (env : TemplateEnv)
    (literalFilters : String → Except String (List FilterFieldOperation))
    (omit_token : String) (input_config : InputConfig) :
    Except String (List RenderedInputConfig) :=
  match input_config.loop with
  | none => do
    let evaluated_filter ← match input_config.filter with
      | some f =>
        eval_filter (fun value => env value [("omit", Value.str omit_token)])
          literalFilters omit_token f
      | none => Except.ok none
    Except.ok [⟨⟨input_config.match_, input_config.config, none, none⟩,
      evaluated_filter, none⟩]
  | some [] => Except.error "Loop content cannot be empty"
  | some (v :: vs) =>
    expandLoop env literalFilters omit_token input_config (v :: vs)

/-- Model of `expand_input_loops` from `processor.py`, materialised to a list
as `process_imports` does with `list(expand_input_loops(...))`. -/
def expand_input_loops (env : TemplateEnv)
    (literalFilters : String → Except String (List FilterFieldOperation))
    (omit_token : String) : List InputConfig → Except String (List RenderedInputConfig)
  | [] => Except.ok []
  | c :: rest => do
    let l ← expandOne env literalFilters omit_token c
    let ls ← expand_input_loops env literalFilters omit_token rest
    Except.ok (l ++ ls)

/- ===================== helper lemmas ===================== -/

theorem ddGet_ddAppend {β : Type} (m : List (String × List β)) (k : String) (v : β)
    (f : String) :
    ddGet (ddAppend m k v) f = if f = k then ddGet m f ++ [v] else ddGet m f := by
  induction m with
  | nil =>
    by_cases h : f = k
    · subst h
      simp [ddAppend, ddGet]
    · have h2 : ¬ k = f := fun hk => h hk.symm
      simp [ddAppend, ddGet, h, h2]
  | cons kv rest ih =>
    obtain ⟨k0, vs⟩ := kv
    by_cases hk : k0 = k
    · subst hk
      by_cases hf : f = k0
      · subst hf
        simp [ddAppend, ddGet]
      · have h2 : ¬ k0 = f := fun h => hf h.symm
        simp [ddAppend, ddGet, hf, h2]
    · by_cases hf : k0 = f
      · subst hf
        have h2 : ¬ k0 = k := hk
        have h3 : ¬ k0 = k := hk
        simp [ddAppend, ddGet, hk]
      · simp [ddAppend, ddGet, hk, hf, ih]

theorem mem_ddGet_key {β : Type} {m : List (String × List β)} {f : String} {x : β}
    (h : x ∈ ddGet m f) : f ∈ m.map Prod.fst := by
  induction m with
  | nil => simp [ddGet] at h
  | cons kv rest ih =>
    obtain ⟨k0, vs⟩ := kv
    by_cases hf : k0 = f
    · subst hf
      simp
    · simp only [ddGet, if_neg hf] at h
      simp [ih h]

theorem DDAll_ddGet {β : Type} {P : β → Prop} {m : List (String × List β)}
    {f : String} {x : β} (hall : DDAll P m) (hx : x ∈ ddGet m f) : P x := by
  induction m with
  | nil => simp [ddGet] at hx
  | cons kv rest ih =>
    obtain ⟨k0, vs⟩ := kv
    by_cases hf : k0 = f
    · subst hf
      simp only [ddGet, if_pos rfl] at hx
      exact hall (k0, vs) (List.mem_cons_self _ _) x hx
    · simp only [ddGet, if_neg hf] at hx
      exact ih (fun kv hkv => hall kv (List.mem_cons_of_mem _ hkv)) hx

theorem DDAll_ddAppend {β : Type} {P : β → Prop} {m : List (String × List β)}
    {k : String} {v : β} (hall : DDAll P m) (hv : P v) : DDAll P (ddAppend m k v) := by
  induction m with
  | nil =>
    intro kv hkv x hx
    simp only [ddAppend, List.mem_singleton] at hkv
    subst hkv
    simp only [List.mem_singleton] at hx
    subst hx
    exact hv
  | cons kv0 rest ih =>
    obtain ⟨k0, vs⟩ := kv0
    by_cases hk : k0 = k
    · intro kv hkv x hx
      simp only [ddAppend, if_pos hk, List.mem_cons] at hkv
      rcases hkv with rfl | hkv
      · simp only [List.mem_append, List.mem_singleton] at hx
        rcases hx with hx | rfl
        · exact hall (k0, vs) (List.mem_cons_self _ _) x hx
        · exact hv
      · exact hall kv (List.mem_cons_of_mem _ hkv) x hx
    · intro kv hkv x hx
      simp only [ddAppend, if_neg hk, List.mem_cons] at hkv
      rcases hkv with rfl | hkv
      · exact hall (k0, vs) (List.mem_cons_self _ _) x hx
      · exact ih (fun kv2 hkv2 => hall kv2 (List.mem_cons_of_mem _ hkv2)) kv hkv x hx

theorem mem_dictAssign {β : Type} {d : List (Nat × β)} {k : Nat} {v : β}
    {x : Nat × β} (hx : x ∈ dictAssign d k v) : x ∈ d ∨ x = (k, v) := by
  induction d with
  | nil =>
    simp only [dictAssign, List.mem_singleton] at hx
    exact Or.inr hx
  | cons p rest ih =>
    obtain ⟨k0, v0⟩ := p
    by_cases hk : k0 = k
    · simp only [dictAssign, if_pos hk, List.mem_cons] at hx
      rcases hx with rfl | hx
      · exact Or.inr (by rw [hk])
      · exact Or.inl (List.mem_cons_of_mem _ hx)
    · simp only [dictAssign, if_neg hk, List.mem_cons] at hx
      rcases hx with rfl | hx
      · exact Or.inl (List.mem_cons_self _ _)
      · rcases ih hx with h | h
        · exact Or.inl (List.mem_cons_of_mem _ h)
        · exact Or.inr h

theorem DDAll_ddAssign {P : (Nat × TransactionUpdate) → Prop}
    {m : List (String × List (Nat × TransactionUpdate))} {k : String} {ln : Nat}
    {u : TransactionUpdate} (hall : DDAll P m) (hu : P (ln, u)) :
    DDAll P (ddAssign m k ln u) := by
  induction m with
  | nil =>
    intro kv hkv x hx
    simp only [ddAssign, List.mem_singleton] at hkv
    subst hkv
    simp only [List.mem_singleton] at hx
    subst hx
    exact hu
  | cons kv0 rest ih =>
    obtain ⟨k0, d⟩ := kv0
    by_cases hk : k0 = k
    · intro kv hkv x hx
      simp only [ddAssign, if_pos hk, List.mem_cons] at hkv
      rcases hkv with rfl | hkv
      · rcases mem_dictAssign hx with h | rfl
        · exact hall (k0, d) (List.mem_cons_self _ _) x h
        · exact hu
      · exact hall kv (List.mem_cons_of_mem _ hkv) x hx
    · intro kv hkv x hx
      simp only [ddAssign, if_neg hk, List.mem_cons] at hkv
      rcases hkv with rfl | hkv
      · exact hall (k0, d) (List.mem_cons_self _ _) x hx
      · exact ih (fun kv2 hkv2 => hall kv2 (List.mem_cons_of_mem _ hkv2)) kv hkv x hx

theorem pyDictGet_eq_none {β : Type} {pairs : List (String × β)} {k : String}
    (h : ∀ p ∈ pairs, p.1 ≠ k) : pyDictGet pairs k = none := by
  unfold pyDictGet
  rw [List.find?_eq_none.mpr]
  · rfl
  · intro p hp
    simp only [decide_eq_true_eq]
    exact h p (List.mem_reverse.mp hp)

theorem pyDictGet_none_iff {β : Type} {pairs : List (String × β)} {k : String} :
    pyDictGet pairs k = none ↔ ∀ p ∈ pairs, p.1 ≠ k := by
  constructor
  · intro h p hp hpk
    unfold pyDictGet at h
    rcases Option.map_eq_none.mp h with hfind
    have := List.find?_eq_none.mp hfind p (List.mem_reverse.mpr hp)
    simp [hpk] at this
  · exact pyDictGet_eq_none

theorem mapOptions_eq_none_of_mem {α β : Type} {f : α → Option β} {l : List α} {t : α}
    (ht : t ∈ l) (hf : f t = none) : mapOptions f l = none := by
  induction l with
  | nil => cases ht
  | cons a as ih =>
    rcases List.mem_cons.mp ht with rfl | hmem
    · simp [mapOptions, hf]
    · simp only [mapOptions, ih hmem]
      cases f a <;> rfl

theorem mapOptions_eq_some_of_map {α β : Type} {f : α → Option β} {l : List α} {bs : List β}
    (h : l.map f = bs.map some) : mapOptions f l = some bs := by
  induction l generalizing bs with
  | nil =>
    cases bs with
    | nil => rfl
    | cons b bs => simp at h
  | cons a as ih =>
    cases bs with
    | nil => simp at h
    | cons b bs =>
      simp only [List.map_cons, List.cons.injEq] at h
      simp [mapOptions, h.1, ih h.2]

theorem imp_fold_remove_persists (resolve : String → String)
    (join : String → String → String) (work : String) (del : Finset String)
    (genById : String → Option GeneratedTransaction)
    (l : List BeancountTransaction)
    (st : List (String × List BeancountTransaction) × List (String × List BeancountTransaction))
    {x : BeancountTransaction} {f : String} (hx : x ∈ ddGet st.1 f) :
    x ∈ ddGet (l.foldl (importedStep resolve join work del genById) st).1 f := by
  induction l generalizing st with
  | nil => exact hx
  | cons t rest ih =>
    apply ih
    unfold importedStep
    by_cases hdel : t.id ∈ del
    · simp only [if_pos hdel]
      rw [ddGet_ddAppend]
      split
      · exact List.mem_append_left _ hx
      · exact hx
    · simp only [if_neg hdel]
      cases hg : genById t.id with
      | some g =>
        simp only
        split
        · rw [ddGet_ddAppend]
          split
          · exact List.mem_append_left _ hx
          · exact hx
        · exact hx
      | none =>
        simp only
        split
        · exact hx
        · exact hx

theorem imp_fold_remove_mem (resolve : String → String)
    (join : String → String → String) (work : String) (del : Finset String)
    (genById : String → Option GeneratedTransaction)
    (l : List BeancountTransaction)
    (st : List (String × List BeancountTransaction) × List (String × List BeancountTransaction))
    {t : BeancountTransaction} (ht : t ∈ l) (hdel : t.id ∈ del) :
    t ∈ ddGet (l.foldl (importedStep resolve join work del genById) st).1 t.file := by
  induction l generalizing st with
  | nil => cases ht
  | cons a rest ih =>
    rcases List.mem_cons.mp ht with rfl | hmem
    · rw [List.foldl_cons]
      apply imp_fold_remove_persists
      unfold importedStep
      simp only [if_pos hdel]
      rw [ddGet_ddAppend, if_pos rfl]
      exact List.mem_append_right _ (List.mem_singleton.mpr rfl)
    · rw [List.foldl_cons]
      exact ih _ hmem

theorem imp_fold_dangling_inv (resolve : String → String)
    (join : String → String → String) (work : String) (del : Finset String)
    (genById : String → Option GeneratedTransaction)
    (l : List BeancountTransaction)
    (st : List (String × List BeancountTransaction) × List (String × List BeancountTransaction))
    (h : DDAll (fun t : BeancountTransaction => t.override = none ∧ genById t.id = none) st.2) :
    DDAll (fun t : BeancountTransaction => t.override = none ∧ genById t.id = none)
      (l.foldl (importedStep resolve join work del genById) st).2 := by
  induction l generalizing st with
  | nil => exact h
  | cons t rest ih =>
    apply ih
    unfold importedStep
    by_cases hdel : t.id ∈ del
    · simpa only [if_pos hdel] using h
    · simp only [if_neg hdel]
      cases hg : genById t.id with
      | some g =>
        simp only
        split
        · exact h
        · exact h
      | none =>
        simp only
        by_cases hov : t.override = none
        · simp only [if_pos hov]
          exact DDAll_ddAppend h ⟨hov, hg⟩
        · simp only [if_neg hov]
          exact h

theorem gen_fold_add_inv (resolve : String → String)
    (join : String → String → String) (work : String) (del : Finset String)
    (impById : String → Option BeancountTransaction)
    (l : List GeneratedTransaction)
    (st : List (String × List (Nat × TransactionUpdate)) × List (String × List GeneratedTransaction))
    (h : DDAll (fun g : GeneratedTransaction => g.id ∉ del) st.2) :
    DDAll (fun g : GeneratedTransaction => g.id ∉ del)
      (l.foldl (generatedStep resolve join work del impById) st).2 := by
  induction l generalizing st with
  | nil => exact h
  | cons t rest ih =>
    apply ih
    unfold generatedStep
    by_cases hdel : t.id ∈ del
    · simpa only [if_pos hdel] using h
    · simp only [if_neg hdel]
      cases hi : impById t.id with
      | some imp =>
        simp only
        split
        · exact h
        · exact DDAll_ddAppend h hdel
      | none =>
        simp only
        exact DDAll_ddAppend h hdel

theorem gen_fold_update_inv (resolve : String → String)
    (join : String → String → String) (work : String) (del : Finset String)
    (impById : String → Option BeancountTransaction)
    (l : List GeneratedTransaction)
    (st : List (String × List (Nat × TransactionUpdate)) × List (String × List GeneratedTransaction))
    (h : DDAll (fun p : Nat × TransactionUpdate => p.2.txn.id ∉ del) st.1) :
    DDAll (fun p : Nat × TransactionUpdate => p.2.txn.id ∉ del)
      (l.foldl (generatedStep resolve join work del impById) st).1 := by
  induction l generalizing st with
  | nil => exact h
  | cons t rest ih =>
    apply ih
    unfold generatedStep
    by_cases hdel : t.id ∈ del
    · simpa only [if_pos hdel] using h
    · simp only [if_neg hdel]
      cases hi : impById t.id with
      | some imp =>
        simp only
        split
        · exact DDAll_ddAssign h hdel
        · exact h
      | none =>
        simp only
        exact h

theorem pySort_idem (l : List String) : pySort (pySort l) = pySort l :=
  List.Sorted.insertionSort_eq (List.sorted_insertionSort StrLe l)

theorem pySort_mem {l : List String} {x : String} : x ∈ pySort l ↔ x ∈ l :=
  List.mem_insertionSort StrLe

theorem strStarts_caret_not_hash {x : String} (h : strStarts x "^" = true) :
    strStarts x "#" = false := by
  unfold strStarts at h ⊢
  cases hx : x.data with
  | nil => rw [hx] at h; cases h
  | cons c cs =>
    rw [hx] at h
    simp only [charsStart, Bool.and_eq_true] at h
    have hc : c = '^' := (eq_of_beq h.1).symm
    subst hc
    simp [charsStart]

theorem strStarts_hash_not_caret {x : String} (h : strStarts x "#" = true) :
    strStarts x "^" = false := by
  unfold strStarts at h ⊢
  cases hx : x.data with
  | nil => rw [hx] at h; cases h
  | cons c cs =>
    rw [hx] at h
    simp only [charsStart, Bool.and_eq_true] at h
    have hc : c = '#' := (eq_of_beq h.1).symm
    subst hc
    simp [charsStart]

theorem extract_hashtags_sorted (s : Statement) :
    pySort ((extract_txn_statement s).hashtags.getD []) =
      (extract_txn_statement s).hashtags.getD [] := by
  unfold extract_txn_statement
  cases s.annotations with
  | none => rfl
  | some anns => exact pySort_idem _

theorem extract_links_sorted (s : Statement) :
    pySort ((extract_txn_statement s).links.getD []) =
      (extract_txn_statement s).links.getD [] := by
  unfold extract_txn_statement
  cases s.annotations with
  | none => rfl
  | some anns => exact pySort_idem _

theorem extract_hashtags_prefix (s : Statement) :
    ∀ x ∈ (extract_txn_statement s).hashtags.getD [], strStarts x "#" = true := by
  unfold extract_txn_statement
  cases s.annotations with
  | none => intro x hx; cases hx
  | some anns =>
    intro x hx
    have := pySort_mem.mp hx
    exact (List.mem_filter.mp this).2

theorem extract_links_prefix (s : Statement) :
    ∀ x ∈ (extract_txn_statement s).links.getD [], strStarts x "^" = true := by
  unfold extract_txn_statement
  cases s.annotations with
  | none => intro x hx; cases hx
  | some anns =>
    intro x hx
    have := pySort_mem.mp hx
    exact (List.mem_filter.mp this).2

theorem extract_gen_header (ts : TransactionStatement) :
    (extract_txn_statement (gen_txn_statement ts)).date = ts.date
    ∧ (extract_txn_statement (gen_txn_statement ts)).flag = ts.flag
    ∧ (extract_txn_statement (gen_txn_statement ts)).payee = ts.payee
    ∧ (extract_txn_statement (gen_txn_statement ts)).narration = ts.narration := by
  unfold extract_txn_statement gen_txn_statement
  cases h : gen_annotations ts.hashtags ts.links <;> exact ⟨rfl, rfl, rfl, rfl⟩

theorem filter_hash_append {hs ls : List String}
    (hh : ∀ x ∈ hs, strStarts x "#" = true)
    (hl : ∀ x ∈ ls, strStarts x "^" = true) :
    (hs ++ ls).filter (fun v => strStarts v "#") = hs := by
  rw [List.filter_append]
  rw [List.filter_eq_self.mpr (fun a ha => hh a ha)]
  rw [List.filter_eq_nil_iff.mpr (fun a ha => by
    simp [strStarts_caret_not_hash (hl a ha)])]
  simp

theorem filter_caret_append {hs ls : List String}
    (hh : ∀ x ∈ hs, strStarts x "#" = true)
    (hl : ∀ x ∈ ls, strStarts x "^" = true) :
    (hs ++ ls).filter (fun v => strStarts v "^") = ls := by
  rw [List.filter_append]
  rw [List.filter_eq_self.mpr (fun a ha => hl a ha)]
  rw [List.filter_eq_nil_iff.mpr (fun a ha => by
    simp [strStarts_hash_not_caret (hh a ha)])]
  simp

theorem extract_gen_tags (ts : TransactionStatement)
    (hh : ∀ x ∈ ts.hashtags.getD [], strStarts x "#" = true)
    (hl : ∀ x ∈ ts.links.getD [], strStarts x "^" = true)
    (hhs : pySort (ts.hashtags.getD []) = ts.hashtags.getD [])
    (hls : pySort (ts.links.getD []) = ts.links.getD []) :
    (extract_txn_statement (gen_txn_statement ts)).hashtags.getD [] = ts.hashtags.getD []
    ∧ (extract_txn_statement (gen_txn_statement ts)).links.getD [] = ts.links.getD [] := by
  rcases hht : ts.hashtags with _ | hs <;> rcases hlt : ts.links with _ | ls <;>
    rw [hht] at hh hhs <;> rw [hlt] at hl hls <;>
    simp only [Option.getD_none, Option.getD_some] at hh hl hhs hls
  · simp [gen_txn_statement, gen_annotations, extract_txn_statement, hht, hlt]
  · have hfh := @filter_hash_append [] ls (fun a ha => absurd ha (List.not_mem_nil a)) hl
    have hfl := @filter_caret_append [] ls (fun a ha => absurd ha (List.not_mem_nil a)) hl
    simp only [List.nil_append] at hfh hfl
    simp [gen_txn_statement, gen_annotations, extract_txn_statement, hht, hlt, hfh, hfl, hls]
    rfl
  · have hfh := @filter_hash_append hs [] hh (fun a ha => absurd ha (List.not_mem_nil a))
    have hfl := @filter_caret_append hs [] hh (fun a ha => absurd ha (List.not_mem_nil a))
    simp only [List.append_nil] at hfh hfl
    simp [gen_txn_statement, gen_annotations, extract_txn_statement, hht, hlt, hfh, hfl, hhs]
    rfl
  · have hfh := filter_hash_append hh hl
    have hfl := filter_caret_append hh hl
    simp [gen_txn_statement, gen_annotations, extract_txn_statement, hht, hlt, hfh, hfl,
      hhs, hls]

theorem extract_set_line (s : Statement) (L : Nat) :
    extract_txn_statement { s with line := L } = extract_txn_statement s := by
  obtain ⟨d, f, p, n, an, l⟩ := s
  cases an <;> rfl

theorem compute_changes_eq_of_mem (resolve : String → String)
    (join : String → String → String)
    (generated_txns : List GeneratedTransaction)
    (imported_txns : List BeancountTransaction)
    (work_dir : String) (deleted_txns : Option (List DeletedTransaction)) (f : String)
    (h : f ∈
      (imported_txns.foldl
        (importedStep resolve join work_dir
          (((deleted_txns.getD []).map (fun d => d.id)).toFinset)
          (pyDictGet (generated_txns.map (fun g => (g.id, g))))) ([], [])).1.map Prod.fst
      ++ (generated_txns.foldl
        (generatedStep resolve join work_dir
          (((deleted_txns.getD []).map (fun d => d.id)).toFinset)
          (pyDictGet (imported_txns.map (fun t => (t.id, t))))) ([], [])).2.map Prod.fst
      ++ (generated_txns.foldl
        (generatedStep resolve join work_dir
          (((deleted_txns.getD []).map (fun d => d.id)).toFinset)
          (pyDictGet (imported_txns.map (fun t => (t.id, t))))) ([], [])).1.map Prod.fst
      ++ (imported_txns.foldl
        (importedStep resolve join work_dir
          (((deleted_txns.getD []).map (fun d => d.id)).toFinset)
          (pyDictGet (generated_txns.map (fun g => (g.id, g))))) ([], [])).2.map Prod.fst) :
    compute_changes resolve join generated_txns imported_txns work_dir deleted_txns f =
      some
        ⟨ddGet (imported_txns.foldl
            (importedStep resolve join work_dir
              (((deleted_txns.getD []).map (fun d => d.id)).toFinset)
              (pyDictGet (generated_txns.map (fun g => (g.id, g))))) ([], [])).1 f,
          ddGet (generated_txns.foldl
            (generatedStep resolve join work_dir
              (((deleted_txns.getD []).map (fun d => d.id)).toFinset)
              (pyDictGet (imported_txns.map (fun t => (t.id, t))))) ([], [])).1 f,
          ddGet (generated_txns.foldl
            (generatedStep resolve join work_dir
              (((deleted_txns.getD []).map (fun d => d.id)).toFinset)
              (pyDictGet (imported_txns.map (fun t => (t.id, t))))) ([], [])).2 f,
          some (ddGet (imported_txns.foldl
            (importedStep resolve join work_dir
              (((deleted_txns.getD []).map (fun d => d.id)).toFinset)
              (pyDictGet (generated_txns.map (fun g => (g.id, g))))) ([], [])).2 f)⟩ := by
  simp only [compute_changes]
  rw [if_pos h]

theorem exists_ok_of_isOk {β : Type} {e : Except String β} (h : e.isOk = true) :
    ∃ b, e = Except.ok b := by
  cases e with
  | error err => simp [Except.isOk, Except.toBool] at h
  | ok b => exact ⟨b, rfl⟩

theorem mapExcept_ok_length {α β : Type} {f : α → Except String β} {l : List α}
    {r : List β} (h : mapExcept f l = Except.ok r) : r.length = l.length := by
  induction l generalizing r with
  | nil =>
    simp only [mapExcept] at h
    injection h with h
    subst h
    rfl
  | cons a as ih =>
    simp only [mapExcept, Bind.bind, Except.bind] at h
    cases hfa : f a with
    | error e => rw [hfa] at h; cases h
    | ok b =>
      rw [hfa] at h
      cases hrest : mapExcept f as with
      | error e => rw [hrest] at h; cases h
      | ok bs =>
        rw [hrest] at h
        injection h with h
        subst h
        simp [ih hrest]

theorem mapExcept_ok_of_forall {α β : Type} {f : α → Except String β} {l : List α}
    (h : ∀ a ∈ l, ∃ b, f a = Except.ok b) :
    ∃ r, mapExcept f l = Except.ok r ∧ r.length = l.length := by
  induction l with
  | nil => exact ⟨[], rfl, rfl⟩
  | cons a as ih =>
    obtain ⟨b, hb⟩ := h a (List.mem_cons_self _ _)
    obtain ⟨r, hr, hlen⟩ := ih (fun x hx => h x (List.mem_cons_of_mem _ hx))
    refine ⟨b :: r, ?_, by simp [hlen]⟩
    simp only [mapExcept, Bind.bind, Except.bind, hb, hr]

theorem claimSat_imp_ruleMatches {reMatch : ReMatch} {txn : Transaction}
    {r : ImportRule} (h : claimSatisfies reMatch txn r = true) :
    ruleMatches reMatch txn r = true := by
  cases hm : r.match_ with
  | single m =>
    have h2 : (match_transaction reMatch txn m
        && (match r.common_cond with
            | none => true
            | some cc => match_transaction reMatch txn cc)) = true := by
      have h3 := h
      unfold claimSatisfies at h3
      rw [hm] at h3
      exact h3
    simp only [Bool.and_eq_true] at h2
    unfold ruleMatches
    rw [hm]
    exact h2.1
  | multi ms =>
    have h2 : (match_transaction_with_vars reMatch txn ms r.common_cond).isSome = true := by
      have h3 := h
      unfold claimSatisfies at h3
      rw [hm] at h3
      exact h3
    unfold ruleMatches
    rw [hm]
    exact h2

theorem procRules_cons_of_match (env : TemplateEnv) (reMatch : ReMatch)
    (txnCtx : Ctx) (input_vars : Option Ctx) (omit_token : String)
    (default_txn : Option TransactionTemplate)
    (prepend_postings appending_postings append_postings : Option (List PostingTemplate))
    (default_file default_import_id : Option String) (txn : Transaction)
    (r : ImportRule) (rest : List ImportRule)
    (h : ruleMatches reMatch txn r = true) :
    procRules env reMatch txnCtx input_vars omit_token default_txn prepend_postings
        appending_postings append_postings default_file default_import_id txn (r :: rest)
      = afterMatch env txnCtx input_vars omit_token default_txn prepend_postings
        appending_postings append_postings default_file default_import_id txn
        (matchedVarsOf env txnCtx reMatch txn r) r.actions := by
  cases hm : r.match_ with
  | multi ms =>
    have h2 : (match_transaction_with_vars reMatch txn ms r.common_cond).isSome = true := by
      have h3 := h
      unfold ruleMatches at h3
      rw [hm] at h3
      exact h3
    obtain ⟨m, hsome⟩ := Option.isSome_iff_exists.mp h2
    simp only [procRules, matchedVarsOf, hm, hsome]
    rfl
  | single sm =>
    have h2 : match_transaction reMatch txn sm = true := by
      have h3 := h
      unfold ruleMatches at h3
      rw [hm] at h3
      exact h3
    simp only [procRules, matchedVarsOf, hm, if_pos h2]

theorem procRules_cons_of_nomatch (env : TemplateEnv) (reMatch : ReMatch)
    (txnCtx : Ctx) (input_vars : Option Ctx) (omit_token : String)
    (default_txn : Option TransactionTemplate)
    (prepend_postings appending_postings append_postings : Option (List PostingTemplate))
    (default_file default_import_id : Option String) (txn : Transaction)
    (r : ImportRule) (rest : List ImportRule)
    (h : ruleMatches reMatch txn r = false) :
    procRules env reMatch txnCtx input_vars omit_token default_txn prepend_postings
        appending_postings append_postings default_file default_import_id txn (r :: rest)
      = procRules env reMatch txnCtx input_vars omit_token default_txn prepend_postings
        appending_postings append_postings default_file default_import_id txn rest := by
  cases hm : r.match_ with
  | multi ms =>
    have h2 : (match_transaction_with_vars reMatch txn ms r.common_cond).isSome = false := by
      have h3 := h
      unfold ruleMatches at h3
      rw [hm] at h3
      exact h3
    have hnone : match_transaction_with_vars reMatch txn ms r.common_cond = none :=
      Option.not_isSome_iff_eq_none.mp (by rw [h2]; exact Bool.false_ne_true)
    simp only [procRules, hm, hnone]
  | single sm =>
    have h2 : match_transaction reMatch txn sm = false := by
      have h3 := h
      unfold ruleMatches at h3
      rw [hm] at h3
      exact h3
    simp only [procRules, hm]
    rw [if_neg (by rw [h2]; exact Bool.false_ne_true)]

theorem procRules_take_congr (env : TemplateEnv) (reMatch : ReMatch)
    (txnCtx : Ctx) (input_vars : Option Ctx) (omit_token : String)
    (default_txn : Option TransactionTemplate)
    (prepend_postings appending_postings append_postings : Option (List PostingTemplate))
    (default_file default_import_id : Option String) (txn : Transaction) :
    ∀ (n : Nat) (rules1 rules2 : List ImportRule),
      rules1.take n = rules2.take n →
      (∃ j, ∃ _ : j < n, ∃ hlen : j < rules1.length,
        ruleMatches reMatch txn (rules1.get ⟨j, hlen⟩) = true) →
      procRules env reMatch txnCtx input_vars omit_token default_txn prepend_postings
          appending_postings append_postings default_file default_import_id txn rules1
        = procRules env reMatch txnCtx input_vars omit_token default_txn prepend_postings
          appending_postings append_postings default_file default_import_id txn rules2 := by
  intro n
  induction n with
  | zero =>
    rintro rules1 rules2 _ ⟨j, hj, _, _⟩
    exact absurd hj (Nat.not_lt_zero j)
  | succ n ih =>
    rintro rules1 rules2 htake ⟨j, hj, hlen, hmatch⟩
    cases rules1 with
    | nil => exact absurd hlen (Nat.not_lt_zero j)
    | cons r1 t1 =>
      cases rules2 with
      | nil => simp at htake
      | cons r2 t2 =>
        simp only [List.take_succ_cons, List.cons.injEq] at htake
        obtain ⟨rfl, htake⟩ := htake
        by_cases hm : ruleMatches reMatch txn r1 = true
        · rw [procRules_cons_of_match env reMatch txnCtx input_vars omit_token
            default_txn prepend_postings appending_postings append_postings
            default_file default_import_id txn r1 t1 hm,
            procRules_cons_of_match env reMatch txnCtx input_vars omit_token
            default_txn prepend_postings appending_postings append_postings
            default_file default_import_id txn r1 t2 hm]
        · have hm2 : ruleMatches reMatch txn r1 = false :=
            Bool.not_eq_true _ ▸ (by simpa using hm)
          rw [procRules_cons_of_nomatch env reMatch txnCtx input_vars omit_token
            default_txn prepend_postings appending_postings append_postings
            default_file default_import_id txn r1 t1 hm2,
            procRules_cons_of_nomatch env reMatch txnCtx input_vars omit_token
            default_txn prepend_postings appending_postings append_postings
            default_file default_import_id txn r1 t2 hm2]
          apply ih t1 t2 htake
          cases j with
          | zero => exact absurd hmatch hm
          | succ j =>
            exact ⟨j, Nat.lt_of_succ_lt_succ hj, Nat.lt_of_succ_lt_succ hlen, hmatch⟩

theorem emitAddTxn_ok_spec {rf : Option String → Option String}
    {dtx : Option TransactionTemplate}
    {pp aps ap : Option (List PostingTemplate)}
    {df did tf af : Option String} {att : TransactionTemplate}
    {g : GeneratedTransaction}
    (h : emitAddTxn rf dtx pp aps ap df did tf af att = Except.ok g) :
    (∃ gps, generate_postings rf
        (pp.getD []
          ++ (match att.postings with
              | some ps => ps
              | none => (dtx.bind (fun t => t.postings)).getD [])
          ++ (match aps with
              | some l => l
              | none => ap.getD [])) = Except.ok gps
      ∧ g.postings = gps)
    ∧ g.payee = rf (first_non_none [att.payee, dtx.bind (fun t => t.payee)])
    ∧ g.tags = process_links_or_tags rf att.tags
    ∧ g.links = process_links_or_tags rf att.links
    ∧ g.metadata = metaItemsRender rf att.metadata
    ∧ (∃ s, rf (first_non_none [att.id, dtx.bind (fun t => t.id), did,
        some DEFAULT_TXN_TEMPLATE_id]) = some s)
    ∧ (∃ s, rf (first_non_none [att.date, dtx.bind (fun t => t.date),
        some DEFAULT_TXN_TEMPLATE_date]) = some s)
    ∧ (∃ s, rf (first_non_none [att.flag, dtx.bind (fun t => t.flag),
        some DEFAULT_TXN_TEMPLATE_flag]) = some s)
    ∧ (∃ n, rf (first_non_none [att.narration, dtx.bind (fun t => t.narration),
        some DEFAULT_TXN_TEMPLATE_narration]) = some n ∧ g.narration = n)
    ∧ (∃ f0 s, first_non_none [af, df] = some f0 ∧ rf (some f0) = some s
        ∧ g.file = s) := by
  simp only [emitAddTxn, Bind.bind, Except.bind, req] at h
  split at h
  case _ e heq => cases h
  case _ gps heq =>
    split at h
    case _ f2 heq2 =>
      split at h
      case _ e heq3 => cases h
      case _ file heq3 =>
        split at h
        case _ e heq4 => cases h
        case _ id2 heq4 =>
          split at h
          case _ e heq5 => cases h
          case _ date2 heq5 =>
            split at h
            case _ e heq6 => cases h
            case _ flag2 heq6 =>
              split at h
              case _ e heq7 => cases h
              case _ narration2 heq7 =>
                split at h
                case _ f3 heq8 =>
                  injection h with h
                  subst h
                  have heq3b : rf (some f2) = some file := by
                    cases hrf : rf (some f2) with
                    | some s =>
                      rw [hrf] at heq3
                      injection heq3 with h2
                      rw [h2]
                    | none => rw [hrf] at heq3; cases heq3
                  have heq4b : rf (first_non_none [att.id,
                      dtx.bind (fun t => t.id), did,
                      some DEFAULT_TXN_TEMPLATE_id]) = some id2 := by
                    cases hrf : rf (first_non_none [att.id,
                        dtx.bind (fun t => t.id), did,
                        some DEFAULT_TXN_TEMPLATE_id]) with
                    | some s =>
                      rw [hrf] at heq4
                      injection heq4 with h2
                      rw [h2]
                    | none => rw [hrf] at heq4; cases heq4
                  have heq5b : rf (first_non_none [att.date,
                      dtx.bind (fun t => t.date),
                      some DEFAULT_TXN_TEMPLATE_date]) = some date2 := by
                    cases hrf : rf (first_non_none [att.date,
                        dtx.bind (fun t => t.date),
                        some DEFAULT_TXN_TEMPLATE_date]) with
                    | some s =>
                      rw [hrf] at heq5
                      injection heq5 with h2
                      rw [h2]
                    | none => rw [hrf] at heq5; cases heq5
                  have heq6b : rf (first_non_none [att.flag,
                      dtx.bind (fun t => t.flag),
                      some DEFAULT_TXN_TEMPLATE_flag]) = some flag2 := by
                    cases hrf : rf (first_non_none [att.flag,
                        dtx.bind (fun t => t.flag),
                        some DEFAULT_TXN_TEMPLATE_flag]) with
                    | some s =>
                      rw [hrf] at heq6
                      injection heq6 with h2
                      rw [h2]
                    | none => rw [hrf] at heq6; cases heq6
                  have heq7b : rf (first_non_none [att.narration,
                      dtx.bind (fun t => t.narration),
                      some DEFAULT_TXN_TEMPLATE_narration]) = some narration2 := by
                    cases hrf : rf (first_non_none [att.narration,
                        dtx.bind (fun t => t.narration),
                        some DEFAULT_TXN_TEMPLATE_narration]) with
                    | some s =>
                      rw [hrf] at heq7
                      injection heq7 with h2
                      rw [h2]
                    | none => rw [hrf] at heq7; cases heq7
                  exact ⟨⟨gps, heq, rfl⟩, rfl, rfl, rfl, rfl, ⟨id2, heq4b⟩,
                    ⟨date2, heq5b⟩, ⟨flag2, heq6b⟩, ⟨narration2, heq7b, rfl⟩,
                    ⟨f2, file, heq2, heq3b, rfl⟩⟩
                case _ heq8 => cases h
    case _ heq2 => cases h

theorem process_links_or_tags_all_none {rf : Option String → Option String}
    {ts : List String} (h : ∀ t ∈ ts, rf (some t) = none) :
    process_links_or_tags rf (some ts) = none := by
  unfold process_links_or_tags
  dsimp only
  have haux : (ts.map (fun item => rf (some item))).filterMap
      (fun o => match o with
        | some s => if s.isEmpty then none else some s
        | none => none) = [] := by
    induction ts with
    | nil => rfl
    | cons t rest ih =>
      simp only [List.map_cons, h t (List.mem_cons_self _ _), List.filterMap_cons]
      exact ih (fun x hx => h x (List.mem_cons_of_mem _ hx))
  rw [haux]
  rfl

theorem metaItems_filterMap_nil {rf : Option String → Option String} :
    ∀ (l : List MetadataItemTemplate), (∀ m ∈ l, rf (some m.value) = none) →
      l.filterMap (fun item =>
        match rf (some item.name), rf (some item.value) with
        | some n, some v =>
          if n.isEmpty || v.isEmpty then none else some (⟨n, v⟩ : MetadataItem)
        | _, _ => none) = [] := by
  intro l
  induction l with
  | nil => intro hl; rfl
  | cons m rest ih =>
    intro hl
    simp only [List.filterMap_cons]
    have hmv := hl m (List.mem_cons_self _ _)
    cases hname : rf (some m.name) with
    | none =>
      rw [hmv]
      exact ih (fun x hx => hl x (List.mem_cons_of_mem _ hx))
    | some n =>
      rw [hmv]
      exact ih (fun x hx => hl x (List.mem_cons_of_mem _ hx))

theorem metaItemsRender_all_none {rf : Option String → Option String}
    {md : Option (List MetadataItemTemplate)}
    (h : ∀ m ∈ md.getD [], rf (some m.value) = none) :
    metaItemsRender rf md = none := by
  simp only [metaItemsRender]
  rw [metaItems_filterMap_nil (md.getD []) h]
  rfl

theorem generate_postings_cons_ok {rf : Option String → Option String}
    {p : PostingTemplate} {rest : List PostingTemplate}
    {gps : List GeneratedPosting}
    (h : generate_postings rf (p :: rest) = Except.ok gps) :
    ∃ g res, gps = g :: res
      ∧ generate_postings rf rest = Except.ok res
      ∧ (∃ s, rf p.account = some s ∧ g.account = s)
      ∧ g.cost = p.cost.bind (fun c0 => rf (some c0))
      ∧ (∀ a, p.amount = some a →
          (∃ s, rf a.number = some s) ∧ (∃ s, rf a.currency = some s))
      ∧ (∀ a, p.price = some a →
          (∃ s, rf a.number = some s) ∧ (∃ s, rf a.currency = some s)) := by
  simp only [generate_postings, Bind.bind, Except.bind, req] at h
  cases hA : p.amount with
  | some a =>
    rw [hA] at h
    dsimp only at h
    cases hn : rf a.number with
    | none =>
      rw [hn] at h
      dsimp only at h
      cases h
    | some sn =>
      rw [hn] at h
      dsimp only at h
      cases hc : rf a.currency with
      | none =>
        rw [hc] at h
        dsimp only at h
        cases h
      | some sc =>
        rw [hc] at h
        dsimp only at h
        cases hP : p.price with
        | some q =>
          rw [hP] at h
          dsimp only at h
          cases hn2 : rf q.number with
          | none =>
            rw [hn2] at h
            dsimp only at h
            cases h
          | some tn =>
            rw [hn2] at h
            dsimp only at h
            cases hc2 : rf q.currency with
            | none =>
              rw [hc2] at h
              dsimp only at h
              cases h
            | some tc =>
              rw [hc2] at h
              dsimp only at h
              cases hacc : rf p.account with
              | none =>
                rw [hacc] at h
                dsimp only at h
                cases h
              | some s =>
                rw [hacc] at h
                dsimp only at h
                cases hrec : generate_postings rf rest with
                | error e =>
                  rw [hrec] at h
                  cases h
                | ok res =>
                  rw [hrec] at h
                  injection h with h
                  subst h
                  refine ⟨_, res, rfl, rfl, ⟨s, rfl, rfl⟩, ?_, ?_, ?_⟩
                  · cases p.cost <;> rfl
                  · intro a2 ha2
                    injection ha2 with ha2
                    subst ha2
                    exact ⟨⟨sn, hn⟩, ⟨sc, hc⟩⟩
                  · intro a2 ha2
                    injection ha2 with ha2
                    subst ha2
                    exact ⟨⟨tn, hn2⟩, ⟨tc, hc2⟩⟩
        | none =>
          rw [hP] at h
          dsimp only at h
          cases hacc : rf p.account with
          | none =>
            rw [hacc] at h
            dsimp only at h
            cases h
          | some s =>
            rw [hacc] at h
            dsimp only at h
            cases hrec : generate_postings rf rest with
            | error e =>
              rw [hrec] at h
              cases h
            | ok res =>
              rw [hrec] at h
              injection h with h
              subst h
              refine ⟨_, res, rfl, rfl, ⟨s, rfl, rfl⟩, ?_, ?_, ?_⟩
              · cases p.cost <;> rfl
              · intro a2 ha2
                injection ha2 with ha2
                subst ha2
                exact ⟨⟨sn, hn⟩, ⟨sc, hc⟩⟩
              · intro a2 ha2
                cases ha2
  | none =>
    rw [hA] at h
    dsimp only at h
    cases hP : p.price with
    | some q =>
      rw [hP] at h
      dsimp only at h
      cases hn2 : rf q.number with
      | none =>
        rw [hn2] at h
        dsimp only at h
        cases h
      | some tn =>
        rw [hn2] at h
        dsimp only at h
        cases hc2 : rf q.currency with
        | none =>
          rw [hc2] at h
          dsimp only at h
          cases h
        | some tc =>
          rw [hc2] at h
          dsimp only at h
          cases hacc : rf p.account with
          | none =>
            rw [hacc] at h
            dsimp only at h
            cases h
          | some s =>
            rw [hacc] at h
            dsimp only at h
            cases hrec : generate_postings rf rest with
            | error e =>
              rw [hrec] at h
              cases h
            | ok res =>
              rw [hrec] at h
              injection h with h
              subst h
              refine ⟨_, res, rfl, rfl, ⟨s, rfl, rfl⟩, ?_, ?_, ?_⟩
              · cases p.cost <;> rfl
              · intro a2 ha2
                cases ha2
              · intro a2 ha2
                injection ha2 with ha2
                subst ha2
                exact ⟨⟨tn, hn2⟩, ⟨tc, hc2⟩⟩
    | none =>
      rw [hP] at h
      dsimp only at h
      cases hacc : rf p.account with
      | none =>
        rw [hacc] at h
        dsimp only at h
        cases h
      | some s =>
        rw [hacc] at h
        dsimp only at h
        cases hrec : generate_postings rf rest with
        | error e =>
          rw [hrec] at h
          cases h
        | ok res =>
          rw [hrec] at h
          injection h with h
          subst h
          refine ⟨_, res, rfl, rfl, ⟨s, rfl, rfl⟩, ?_, ?_, ?_⟩
          · cases p.cost <;> rfl
          · intro a2 ha2
            cases ha2
          · intro a2 ha2
            cases ha2

theorem generate_postings_ok_req {rf : Option String → Option String} :
    ∀ {pts : List PostingTemplate} {gps : List GeneratedPosting},
      generate_postings rf pts = Except.ok gps →
      ∀ pt ∈ pts,
        (∃ s, rf pt.account = some s)
        ∧ (∀ a, pt.amount = some a →
            (∃ s, rf a.number = some s) ∧ (∃ s, rf a.currency = some s))
        ∧ (∀ a, pt.price = some a →
            (∃ s, rf a.number = some s) ∧ (∃ s, rf a.currency = some s)) := by
  intro pts
  induction pts with
  | nil => intro gps h pt hpt; cases hpt
  | cons p rest ih =>
    intro gps h pt hpt
    obtain ⟨g, res, -, hrec, ⟨s, hacc, -⟩, -, hamt, hprc⟩ :=
      generate_postings_cons_ok h
    rcases List.mem_cons.mp hpt with hpe | hpr
    · subst hpe
      exact ⟨⟨s, hacc⟩, hamt, hprc⟩
    · exact ih hrec pt hpr

theorem generate_postings_cost {rf : Option String → Option String} :
    ∀ {pts : List PostingTemplate} {gps : List GeneratedPosting},
      generate_postings rf pts = Except.ok gps →
      ∀ (i : Nat) (pt : PostingTemplate), pts[i]? = some pt →
        ∃ p, gps[i]? = some p ∧ p.cost = pt.cost.bind (fun c0 => rf (some c0)) := by
  intro pts
  induction pts with
  | nil => intro gps h i pt hget; simp at hget
  | cons p rest ih =>
    intro gps h i pt hget
    obtain ⟨g, res, hgps, hrec, -, hcosteq, -, -⟩ := generate_postings_cons_ok h
    subst hgps
    cases i with
    | zero =>
      simp only [List.getElem?_cons_zero] at hget
      injection hget with hget
      subst hget
      exact ⟨g, by simp, hcosteq⟩
    | succ i =>
      simp only [List.getElem?_cons_succ] at hget
      obtain ⟨q, hq, hqc⟩ := ih hrec i pt hget
      refine ⟨q, ?_, hqc⟩
      simp only [List.getElem?_cons_succ]
      exact hq

theorem process_single_add (env : TemplateEnv) (reMatch : ReMatch)
    (txn : Transaction) (input_config : Option InputConfigDetails)
    (omit_token : String) (default_import_id : Option String)
    (input_vars : Option Ctx) (r : ImportRule) (rest : List ImportRule)
    (af : Option String) (att : TransactionTemplate)
    (hm : ruleMatches reMatch txn r = true)
    (hact : r.actions = [Action.add_txn af att]) :
    ∀ out, process_transaction env reMatch (r :: rest) txn input_config omit_token
        default_import_id input_vars = Except.ok out →
      ∃ g, out = ([Emission.gen g], none)
        ∧ emitAddTxn
            (render_str env (mkTxnCtx txn omit_token) input_vars
              (matchedVarsOf env (mkTxnCtx txn omit_token) reMatch txn r) omit_token)
            (input_config.bind (fun c => c.default_txn))
            (input_config.bind (fun c => c.prepend_postings))
            (input_config.bind (fun c => c.appending_postings))
            (input_config.bind (fun c => c.append_postings))
            (input_config.bind (fun c => c.default_file))
            default_import_id txn.file af att = Except.ok g := by
  intro out hres
  unfold process_transaction at hres
  rw [procRules_cons_of_match env reMatch (mkTxnCtx txn omit_token) input_vars
    omit_token (input_config.bind (fun c => c.default_txn))
    (input_config.bind (fun c => c.prepend_postings))
    (input_config.bind (fun c => c.appending_postings))
    (input_config.bind (fun c => c.append_postings))
    (input_config.bind (fun c => c.default_file)) default_import_id txn r rest hm]
    at hres
  rw [hact] at hres
  simp only [afterMatch, runActions, Bind.bind, Except.bind] at hres
  cases hemit : emitAddTxn
      (render_str env (mkTxnCtx txn omit_token) input_vars
        (matchedVarsOf env (mkTxnCtx txn omit_token) reMatch txn r) omit_token)
      (input_config.bind (fun c => c.default_txn))
      (input_config.bind (fun c => c.prepend_postings))
      (input_config.bind (fun c => c.appending_postings))
      (input_config.bind (fun c => c.append_postings))
      (input_config.bind (fun c => c.default_file))
      default_import_id txn.file af att with
  | error e =>
    rw [hemit] at hres
    have h2 : (Except.error e :
        Except String (List Emission × Option UnprocessedTransaction))
      = Except.ok out := hres
    cases h2
  | ok g =>
    rw [hemit] at hres
    refine ⟨g, ?_, rfl⟩
    have h2 : Except.ok (([Emission.gen g] : List Emission),
        (none : Option UnprocessedTransaction)) = Except.ok out := hres
    injection h2 with h2
    exact h2.symm

/- ===================== claim theorems ===================== -/

/-- C10: with `remove_dangling` true and a non-empty dangling list,
`apply_change_set` appends the dangling entries to the caller's
`change_set.remove` list in place, observably mutating the argument; with
`remove_dangling` false the change set is left unchanged. -/
theorem apply_change_set_mutation_spec (cs : ChangeSet) (remove_dangling : Bool) :
    (remove_dangling = true → ∀ d, cs.dangling = some d → d ≠ [] →
        (apply_change_set_changeset_after cs remove_dangling).remove = cs.remove ++ d
        ∧ apply_change_set_changeset_after cs remove_dangling ≠ cs)
    ∧ (remove_dangling = false →
        apply_change_set_changeset_after cs remove_dangling = cs) := by
  constructor
  · intro hrd d hd hne
    subst hrd
    unfold apply_change_set_changeset_after
    rw [if_pos rfl, hd]
    refine ⟨rfl, ?_⟩
    intro heq
    have hrem : cs.remove ++ d = cs.remove := congrArg ChangeSet.remove heq
    have hlen : (cs.remove ++ d).length = cs.remove.length := congrArg List.length hrem
    rw [List.length_append] at hlen
    exact hne (List.eq_nil_of_length_eq_zero (by omega))
  · intro hrd
    subst hrd
    unfold apply_change_set_changeset_after
    rw [if_neg (by simp)]

/-- C10 witness: the mutation law evaluated at a concrete change set. -/
theorem apply_change_set_mutation_spec_witness :
    ((apply_change_set_changeset_after
        ⟨[], [], [], some [⟨"f.bean", 3, "x", none⟩]⟩ true).remove
      = [] ++ [⟨"f.bean", 3, "x", none⟩]
    ∧ apply_change_set_changeset_after
        ⟨[], [], [], some [⟨"f.bean", 3, "x", none⟩]⟩ true
      ≠ ⟨[], [], [], some [⟨"f.bean", 3, "x", none⟩]⟩)
    ∧ apply_change_set_changeset_after
        ⟨[], [], [], some [⟨"f.bean", 3, "x", none⟩]⟩ false
      = ⟨[], [], [], some [⟨"f.bean", 3, "x", none⟩]⟩ :=
  ⟨(apply_change_set_mutation_spec ⟨[], [], [], some [⟨"f.bean", 3, "x", none⟩]⟩ true).1
      rfl [⟨"f.bean", 3, "x", none⟩] rfl (by decide),
    (apply_change_set_mutation_spec ⟨[], [], [], some [⟨"f.bean", 3, "x", none⟩]⟩ false).2
      rfl⟩

/-- C9: `expand_input_loops` raises `ValueError("Loop content cannot be
empty")` for an input whose `loop` is present but empty, instead of yielding
zero rendered configurations; a loop of `n ≥ 1` bindings yields exactly `n`
rendered configurations (unconditionally when the configuration has no filter
and a config block; in general whenever the expansion succeeds). -/
theorem expand_input_loops_empty_loop_spec (env : TemplateEnv)
    (literalFilters : String → Except String (List FilterFieldOperation))
    (omit_token : String) (cfg : InputConfig) :
    (cfg.loop = some [] →
        expand_input_loops env literalFilters omit_token [cfg]
          = Except.error "Loop content cannot be empty")
    ∧ (∀ vs, cfg.loop = some vs → vs ≠ [] →
        ∀ l, expand_input_loops env literalFilters omit_token [cfg] = Except.ok l →
          l.length = vs.length)
    ∧ (∀ vs c, cfg.loop = some vs → vs ≠ [] → cfg.filter = none →
        cfg.config = some c →
        ∃ l, expand_input_loops env literalFilters omit_token [cfg] = Except.ok l
          ∧ l.length = vs.length) := by
  refine ⟨?_, ?_, ?_⟩
  · intro hloop
    simp [expand_input_loops, expandOne, hloop, Bind.bind, Except.bind]
  · intro vs hloop hne l hok
    cases vs with
    | nil => exact absurd rfl hne
    | cons v rest =>
      simp only [expand_input_loops, expandOne, hloop, Bind.bind, Except.bind] at hok
      cases hexp : expandLoop env literalFilters omit_token cfg (v :: rest) with
      | error e => rw [hexp] at hok; cases hok
      | ok r =>
        rw [hexp] at hok
        simp only [expand_input_loops] at hok
        injection hok with hok
        subst hok
        simp [mapExcept_ok_length hexp]
  · intro vs c hloop hne hfil hcfg
    cases vs with
    | nil => exact absurd rfl hne
    | cons v rest =>
      have hiter : ∀ values ∈ v :: rest, ∃ b,
          expandLoopIter env literalFilters omit_token cfg values = Except.ok b := by
        intro values _
        apply exists_ok_of_isOk
        cases hce : c.extractor with
        | some e =>
          simp [expandLoopIter, hfil, hcfg, hce, Bind.bind, Except.bind, Except.isOk,
            Except.toBool]
        | none =>
          simp [expandLoopIter, hfil, hcfg, hce, Bind.bind, Except.bind, Except.isOk,
            Except.toBool]
      obtain ⟨r, hr, hlen⟩ := mapExcept_ok_of_forall hiter
      refine ⟨r, ?_, hlen⟩
      simp only [expand_input_loops, expandOne, hloop, Bind.bind, Except.bind]
      rw [show expandLoop env literalFilters omit_token cfg (v :: rest) = Except.ok r
        from hr]
      simp [expand_input_loops]

/-- C9 witness: a concrete empty loop raises, and a concrete two-binding loop
yields exactly two rendered configurations. -/
theorem expand_input_loops_empty_loop_spec_witness :
    (expand_input_loops (fun s _ => s) (fun _ => Except.error "boom") "OMIT"
        [⟨SimpleFileMatch.str "a.csv", some {}, none, some []⟩]
      = Except.error "Loop content cannot be empty")
    ∧ ∃ l, expand_input_loops (fun s _ => s) (fun _ => Except.error "boom") "OMIT"
        [⟨SimpleFileMatch.str "a.csv", some {}, none,
          some [[("x", Value.int 1)], [("x", Value.int 2)]]⟩]
      = Except.ok l ∧ l.length = 2 :=
  ⟨(expand_input_loops_empty_loop_spec (fun s _ => s) (fun _ => Except.error "boom")
      "OMIT" ⟨SimpleFileMatch.str "a.csv", some {}, none, some []⟩).1 rfl,
    (expand_input_loops_empty_loop_spec (fun s _ => s) (fun _ => Except.error "boom")
      "OMIT" ⟨SimpleFileMatch.str "a.csv", some {}, none,
        some [[("x", Value.int 1)], [("x", Value.int 2)]]⟩).2.2
      [[("x", Value.int 1)], [("x", Value.int 2)]] {} rfl (by decide) rfl rfl⟩

/-- C7: the output of `process_transaction` depends only on the first rule,
in declaration order, whose match and common condition are satisfied: two
rule lists that agree up to and including that rule produce identical output,
and the output equals the output on the truncated list, so rules after the
first matching one are never consulted. -/
theorem process_transaction_first_rule_owns (env : TemplateEnv)
    (reMatch : ReMatch) (txn : Transaction)
    (input_config : Option InputConfigDetails) (omit_token : String)
    (default_import_id : Option String) (input_vars : Option Ctx)
    (rules1 rules2 : List ImportRule) (i : Nat) (hi : i < rules1.length)
    (hsat : claimSatisfies reMatch txn (rules1.get ⟨i, hi⟩) = true)
    (hagree : rules1.take (i + 1) = rules2.take (i + 1)) :
    process_transaction env reMatch rules1 txn input_config omit_token
        default_import_id input_vars
      = process_transaction env reMatch rules2 txn input_config omit_token
        default_import_id input_vars
    ∧ process_transaction env reMatch rules1 txn input_config omit_token
        default_import_id input_vars
      = process_transaction env reMatch (rules1.take (i + 1)) txn input_config
        omit_token default_import_id input_vars := by
  have hmatch := claimSat_imp_ruleMatches hsat
  have hex : ∃ j, ∃ _ : j < i + 1, ∃ hlen : j < rules1.length,
      ruleMatches reMatch txn (rules1.get ⟨j, hlen⟩) = true :=
    ⟨i, Nat.lt_succ_self i, hi, hmatch⟩
  constructor
  · unfold process_transaction
    exact procRules_take_congr env reMatch (mkTxnCtx txn omit_token) input_vars
      omit_token (input_config.bind (fun c => c.default_txn))
      (input_config.bind (fun c => c.prepend_postings))
      (input_config.bind (fun c => c.appending_postings))
      (input_config.bind (fun c => c.append_postings))
      (input_config.bind (fun c => c.default_file)) default_import_id txn
      (i + 1) rules1 rules2 hagree hex
  · unfold process_transaction
    exact procRules_take_congr env reMatch (mkTxnCtx txn omit_token) input_vars
      omit_token (input_config.bind (fun c => c.default_txn))
      (input_config.bind (fun c => c.prepend_postings))
      (input_config.bind (fun c => c.appending_postings))
      (input_config.bind (fun c => c.append_postings))
      (input_config.bind (fun c => c.default_file)) default_import_id txn
      (i + 1) rules1 (rules1.take (i + 1))
      (by rw [List.take_take]; simp) hex

/-- C7 witness: a concrete matching first rule makes the output independent
of a rule appended after it. -/
theorem process_transaction_first_rule_owns_witness :
    process_transaction (fun s _ => s) (fun _ _ _ => false)
        [{ match_ := RuleMatch.single { extractor := some (StrMatch.exact "E") }
           actions := [] }]
        { extractor := "E" } none "OMIT" none none
      = process_transaction (fun s _ => s) (fun _ _ _ => false)
        [{ match_ := RuleMatch.single { extractor := some (StrMatch.exact "E") }
           actions := [] },
         { match_ := RuleMatch.single { extractor := some (StrMatch.exact "E") }
           actions := [Action.ignore] }]
        { extractor := "E" } none "OMIT" none none
    ∧ process_transaction (fun s _ => s) (fun _ _ _ => false)
        [{ match_ := RuleMatch.single { extractor := some (StrMatch.exact "E") }
           actions := [] }]
        { extractor := "E" } none "OMIT" none none
      = process_transaction (fun s _ => s) (fun _ _ _ => false)
        (List.take 1
          [{ match_ := RuleMatch.single { extractor := some (StrMatch.exact "E") }
             actions := [] }])
        { extractor := "E" } none "OMIT" none none :=
  process_transaction_first_rule_owns (fun s _ => s) (fun _ _ _ => false)
    { extractor := "E" } none "OMIT" none none
    [{ match_ := RuleMatch.single { extractor := some (StrMatch.exact "E") }
       actions := [] }]
    [{ match_ := RuleMatch.single { extractor := some (StrMatch.exact "E") }
       actions := [] },
     { match_ := RuleMatch.single { extractor := some (StrMatch.exact "E") }
       actions := [Action.ignore] }]
    0 (by decide) (by decide) rfl

/-- C8: `parse_override_flags` splits its input on `,`; any input containing a
token that is not a known flag name yields no flag set; any input in which
`NONE` or `ALL` occurs together with any other flag yields no flag set; every
other input yields exactly the set of the named flags. -/
theorem parse_override_flags_spec (value : String) :
    ((∃ t ∈ pySplit ',' value, ImportOverrideFlag.ofString t = none) →
        parse_override_flags value = none)
    ∧ (∀ fs : List ImportOverrideFlag,
        (pySplit ',' value).map ImportOverrideFlag.ofString = fs.map some →
          (((ImportOverrideFlag.NONE ∈ fs ∨ ImportOverrideFlag.ALL ∈ fs) ∧ 1 < fs.toFinset.card) →
              parse_override_flags value = none)
          ∧ (¬ ((ImportOverrideFlag.NONE ∈ fs ∨ ImportOverrideFlag.ALL ∈ fs) ∧ 1 < fs.toFinset.card) →
              parse_override_flags value = some fs.toFinset)) := by
  constructor
  · rintro ⟨t, ht, hf⟩
    unfold parse_override_flags
    rw [mapOptions_eq_none_of_mem ht hf]
  · intro fs hmap
    have hsome : mapOptions ImportOverrideFlag.ofString (pySplit ',' value) = some fs :=
      mapOptions_eq_some_of_map hmap
    have hiff :
        ((ImportOverrideFlag.ALL ∈ fs.toFinset ∨ ImportOverrideFlag.NONE ∈ fs.toFinset)
            ∧ 1 < fs.toFinset.card)
        ↔ ((ImportOverrideFlag.NONE ∈ fs ∨ ImportOverrideFlag.ALL ∈ fs) ∧ 1 < fs.toFinset.card) := by
      simp only [List.mem_toFinset]
      exact and_congr_left fun _ => Or.comm
    constructor
    · intro hbad
      unfold parse_override_flags
      rw [hsome]
      simp only [if_pos (hiff.mpr hbad)]
    · intro hok
      unfold parse_override_flags
      rw [hsome]
      simp only [if_neg (fun h => hok (hiff.mp h))]

/-- C1: override discipline of `update_transaction`: an unset override set or
one containing `ALL` produces the full rendering of the generated
transaction; one containing `NONE` produces the existing entry unchanged;
otherwise the produced entry agrees with the existing entry on every header
attribute and on the postings whose flag is not in the set, agrees with the
rendered generated transaction on every attribute whose flag is in the set,
and preserves the existing statement's source line number. -/
theorem update_transaction_override_discipline
    (entry : Entry) (tu : TransactionUpdate) (lineno : Nat) (newEntry : Entry)
    (hok : txnToEntry tu.txn lineno = Except.ok newEntry) :
    ((tu.override = none ∨ ∃ ov, tu.override = some ov ∧ ImportOverrideFlag.ALL ∈ ov) →
        update_transaction entry tu lineno = Except.ok newEntry)
    ∧ (∀ ov, tu.override = some ov → ImportOverrideFlag.ALL ∉ ov →
        ImportOverrideFlag.NONE ∈ ov →
        update_transaction entry tu lineno = Except.ok entry)
    ∧ (∀ ov, tu.override = some ov → ImportOverrideFlag.ALL ∉ ov →
        ImportOverrideFlag.NONE ∉ ov →
        ∀ res, update_transaction entry tu lineno = Except.ok res →
          ((extract_txn_statement res.statement).date
              = (if ImportOverrideFlag.DATE ∈ ov
                  then (extract_txn_statement newEntry.statement).date
                  else (extract_txn_statement entry.statement).date))
          ∧ ((extract_txn_statement res.statement).flag
              = (if ImportOverrideFlag.FLAG ∈ ov
                  then (extract_txn_statement newEntry.statement).flag
                  else (extract_txn_statement entry.statement).flag))
          ∧ ((extract_txn_statement res.statement).payee
              = (if ImportOverrideFlag.PAYEE ∈ ov
                  then (extract_txn_statement newEntry.statement).payee
                  else (extract_txn_statement entry.statement).payee))
          ∧ ((extract_txn_statement res.statement).narration
              = (if ImportOverrideFlag.NARRATION ∈ ov
                  then (extract_txn_statement newEntry.statement).narration
                  else (extract_txn_statement entry.statement).narration))
          ∧ ((extract_txn_statement res.statement).hashtags.getD []
              = (if ImportOverrideFlag.HASHTAGS ∈ ov
                  then (extract_txn_statement newEntry.statement).hashtags.getD []
                  else (extract_txn_statement entry.statement).hashtags.getD []))
          ∧ ((extract_txn_statement res.statement).links.getD []
              = (if ImportOverrideFlag.LINKS ∈ ov
                  then (extract_txn_statement newEntry.statement).links.getD []
                  else (extract_txn_statement entry.statement).links.getD []))
          ∧ (res.postings
              = (if ImportOverrideFlag.POSTINGS ∈ ov
                  then newEntry.postings else entry.postings))
          ∧ res.statement.line = entry.statement.line) := by
  refine ⟨?_, ?_, ?_⟩
  · rintro (hov | ⟨ov, hov, hall⟩)
    · simp [update_transaction, hok, hov, Bind.bind, Except.bind, pure, Except.pure]
    · simp [update_transaction, hok, hov, hall, Bind.bind, Except.bind, pure, Except.pure]
  · intro ov hov hALL hNONE
    simp [update_transaction, hok, hov, hALL, hNONE, Bind.bind, Except.bind, pure, Except.pure]
  · intro ov hov hALL hNONE res hres
    simp only [update_transaction, hok, hov, Bind.bind, Except.bind, pure, Except.pure] at hres
    rw [if_neg hALL, if_neg hNONE] at hres
    have hflagOf : ∀ fl : ImportOverrideFlag, fl ∈ headerFlags →
        headerFlags ∩ ov = ∅ → fl ∉ ov := by
      intro fl hfl he h
      have := Finset.mem_inter.mpr ⟨hfl, h⟩
      rw [he] at this
      exact Finset.not_mem_empty _ this
    have hhead := extract_gen_header
      ⟨if ImportOverrideFlag.DATE ∈ ov
          then (extract_txn_statement newEntry.statement).date
          else (extract_txn_statement entry.statement).date,
        if ImportOverrideFlag.FLAG ∈ ov
          then (extract_txn_statement newEntry.statement).flag
          else (extract_txn_statement entry.statement).flag,
        if ImportOverrideFlag.PAYEE ∈ ov
          then (extract_txn_statement newEntry.statement).payee
          else (extract_txn_statement entry.statement).payee,
        if ImportOverrideFlag.NARRATION ∈ ov
          then (extract_txn_statement newEntry.statement).narration
          else (extract_txn_statement entry.statement).narration,
        if ImportOverrideFlag.HASHTAGS ∈ ov
          then (extract_txn_statement newEntry.statement).hashtags
          else (extract_txn_statement entry.statement).hashtags,
        if ImportOverrideFlag.LINKS ∈ ov
          then (extract_txn_statement newEntry.statement).links
          else (extract_txn_statement entry.statement).links⟩
    have htags := extract_gen_tags
      ⟨if ImportOverrideFlag.DATE ∈ ov
          then (extract_txn_statement newEntry.statement).date
          else (extract_txn_statement entry.statement).date,
        if ImportOverrideFlag.FLAG ∈ ov
          then (extract_txn_statement newEntry.statement).flag
          else (extract_txn_statement entry.statement).flag,
        if ImportOverrideFlag.PAYEE ∈ ov
          then (extract_txn_statement newEntry.statement).payee
          else (extract_txn_statement entry.statement).payee,
        if ImportOverrideFlag.NARRATION ∈ ov
          then (extract_txn_statement newEntry.statement).narration
          else (extract_txn_statement entry.statement).narration,
        if ImportOverrideFlag.HASHTAGS ∈ ov
          then (extract_txn_statement newEntry.statement).hashtags
          else (extract_txn_statement entry.statement).hashtags,
        if ImportOverrideFlag.LINKS ∈ ov
          then (extract_txn_statement newEntry.statement).links
          else (extract_txn_statement entry.statement).links⟩
      (by
        dsimp only
        split
        · exact extract_hashtags_prefix newEntry.statement
        · exact extract_hashtags_prefix entry.statement)
      (by
        dsimp only
        split
        · exact extract_links_prefix newEntry.statement
        · exact extract_links_prefix entry.statement)
      (by
        dsimp only
        rw [apply_ite (fun o : Option (List String) => o.getD [])]
        rw [apply_ite pySort]
        rw [extract_hashtags_sorted newEntry.statement,
          extract_hashtags_sorted entry.statement])
      (by
        dsimp only
        rw [apply_ite (fun o : Option (List String) => o.getD [])]
        rw [apply_ite pySort]
        rw [extract_links_sorted newEntry.statement, extract_links_sorted entry.statement])
    by_cases hpost : ImportOverrideFlag.POSTINGS ∈ ov <;>
      by_cases hhdr : headerFlags ∩ ov = ∅
    · -- POSTINGS set, header intersection empty
      rw [if_pos hpost, if_neg (fun hcon => hcon hhdr)] at hres
      injection hres with h
      subst h
      refine ⟨?_, ?_, ?_, ?_, ?_, ?_, ?_, ?_⟩ <;>
        simp [hflagOf ImportOverrideFlag.DATE (by decide) hhdr,
          hflagOf ImportOverrideFlag.FLAG (by decide) hhdr,
          hflagOf ImportOverrideFlag.PAYEE (by decide) hhdr,
          hflagOf ImportOverrideFlag.NARRATION (by decide) hhdr,
          hflagOf ImportOverrideFlag.HASHTAGS (by decide) hhdr,
          hflagOf ImportOverrideFlag.LINKS (by decide) hhdr, hpost]
    · -- POSTINGS set, some header flag set
      rw [if_pos hpost, if_pos hhdr] at hres
      injection hres with h
      subst h
      refine ⟨?_, ?_, ?_, ?_, ?_, ?_, ?_, ?_⟩
      · rw [extract_set_line, hhead.1]
      · rw [extract_set_line, hhead.2.1]
      · rw [extract_set_line, hhead.2.2.1]
      · rw [extract_set_line, hhead.2.2.2]
      · rw [extract_set_line, htags.1,
          apply_ite (fun o : Option (List String) => o.getD [])]
      · rw [extract_set_line, htags.2,
          apply_ite (fun o : Option (List String) => o.getD [])]
      · simp [hpost]
      · rfl
    · -- POSTINGS not set, header intersection empty
      rw [if_neg hpost, if_neg (fun hcon => hcon hhdr)] at hres
      injection hres with h
      subst h
      refine ⟨?_, ?_, ?_, ?_, ?_, ?_, ?_, ?_⟩ <;>
        simp [hflagOf ImportOverrideFlag.DATE (by decide) hhdr,
          hflagOf ImportOverrideFlag.FLAG (by decide) hhdr,
          hflagOf ImportOverrideFlag.PAYEE (by decide) hhdr,
          hflagOf ImportOverrideFlag.NARRATION (by decide) hhdr,
          hflagOf ImportOverrideFlag.HASHTAGS (by decide) hhdr,
          hflagOf ImportOverrideFlag.LINKS (by decide) hhdr, hpost]
    · -- POSTINGS not set, some header flag set
      rw [if_neg hpost, if_pos hhdr] at hres
      injection hres with h
      subst h
      refine ⟨?_, ?_, ?_, ?_, ?_, ?_, ?_, ?_⟩
      · rw [extract_set_line, hhead.1]
      · rw [extract_set_line, hhead.2.1]
      · rw [extract_set_line, hhead.2.2.1]
      · rw [extract_set_line, hhead.2.2.2]
      · rw [extract_set_line, htags.1,
          apply_ite (fun o : Option (List String) => o.getD [])]
      · rw [extract_set_line, htags.2,
          apply_ite (fun o : Option (List String) => o.getD [])]
      · simp [hpost]
      · rfl

/-- C1 witness: the override discipline evaluated at a concrete update with
override set `{NARRATION, POSTINGS}`. -/
theorem update_transaction_override_discipline_witness :
    ((extract_txn_statement c1Res.statement).date
        = (if ImportOverrideFlag.DATE ∈
              ({ImportOverrideFlag.NARRATION, ImportOverrideFlag.POSTINGS} :
                Finset ImportOverrideFlag)
            then (extract_txn_statement c1New.statement).date
            else (extract_txn_statement c1Entry.statement).date))
    ∧ ((extract_txn_statement c1Res.statement).flag
        = (if ImportOverrideFlag.FLAG ∈
              ({ImportOverrideFlag.NARRATION, ImportOverrideFlag.POSTINGS} :
                Finset ImportOverrideFlag)
            then (extract_txn_statement c1New.statement).flag
            else (extract_txn_statement c1Entry.statement).flag))
    ∧ ((extract_txn_statement c1Res.statement).payee
        = (if ImportOverrideFlag.PAYEE ∈
              ({ImportOverrideFlag.NARRATION, ImportOverrideFlag.POSTINGS} :
                Finset ImportOverrideFlag)
            then (extract_txn_statement c1New.statement).payee
            else (extract_txn_statement c1Entry.statement).payee))
    ∧ ((extract_txn_statement c1Res.statement).narration
        = (if ImportOverrideFlag.NARRATION ∈
              ({ImportOverrideFlag.NARRATION, ImportOverrideFlag.POSTINGS} :
                Finset ImportOverrideFlag)
            then (extract_txn_statement c1New.statement).narration
            else (extract_txn_statement c1Entry.statement).narration))
    ∧ ((extract_txn_statement c1Res.statement).hashtags.getD []
        = (if ImportOverrideFlag.HASHTAGS ∈
              ({ImportOverrideFlag.NARRATION, ImportOverrideFlag.POSTINGS} :
                Finset ImportOverrideFlag)
            then (extract_txn_statement c1New.statement).hashtags.getD []
            else (extract_txn_statement c1Entry.statement).hashtags.getD []))
    ∧ ((extract_txn_statement c1Res.statement).links.getD []
        = (if ImportOverrideFlag.LINKS ∈
              ({ImportOverrideFlag.NARRATION, ImportOverrideFlag.POSTINGS} :
                Finset ImportOverrideFlag)
            then (extract_txn_statement c1New.statement).links.getD []
            else (extract_txn_statement c1Entry.statement).links.getD []))
    ∧ (c1Res.postings
        = (if ImportOverrideFlag.POSTINGS ∈
              ({ImportOverrideFlag.NARRATION, ImportOverrideFlag.POSTINGS} :
                Finset ImportOverrideFlag)
            then c1New.postings else c1Entry.postings))
    ∧ c1Res.statement.line = c1Entry.statement.line :=
  (update_transaction_override_discipline c1Entry c1Update 42 c1New rfl).2.2
    {ImportOverrideFlag.NARRATION, ImportOverrideFlag.POSTINGS} rfl
    (by decide) (by decide) c1Res rfl

/-- C2 counterexample: with both `appending_postings` (template account
`"DEP"`) and `append_postings` (template account `"NEW"`) present, the
generated transaction's posting list ends with the rendering of the
deprecated `appending_postings`, not of `append_postings` as the claim
states. -/
theorem append_postings_precedence_counterexample :
    process_transaction (fun s _ => s) (fun _ _ _ => false)
        [{ match_ := RuleMatch.single { extractor := some (StrMatch.exact "E") }
           actions := [Action.add_txn (some "out.bean") { postings := some [] }] }]
        { extractor := "E", file := some "t.csv" }
        (some { appending_postings := some [{ account := some "DEP" }]
                append_postings := some [{ account := some "NEW" }] })
        "OMIT" none none
      = Except.ok ([Emission.gen
          ⟨"out.bean", DEFAULT_TXN_TEMPLATE_id, some ["t.csv"],
            DEFAULT_TXN_TEMPLATE_date, "*", DEFAULT_TXN_TEMPLATE_narration,
            none, none, none, none, [⟨"DEP", none, none, none⟩]⟩], none)
    ∧ [(⟨"DEP", none, none, none⟩ : GeneratedPosting)]
      ≠ [(⟨"NEW", none, none, none⟩ : GeneratedPosting)] :=
  ⟨rfl, by decide⟩

/-- C2 (amended): when both `appending_postings` and `append_postings` are
present, `process_transaction` composes the generated posting list as
`prepend_postings ++ (action.txn.postings, else default_txn.postings) ++
appending_postings` — the deprecated field takes precedence (emitting a
deprecation warning); `append_postings` is used only when the deprecated
field is absent. -/
theorem appending_postings_wins_when_both_present (env : TemplateEnv)
    (reMatch : ReMatch) (txn : Transaction) (icd : InputConfigDetails)
    (omit_token : String) (default_import_id : Option String)
    (input_vars : Option Ctx) (r : ImportRule) (rest : List ImportRule)
    (af : Option String) (att : TransactionTemplate)
    (aps bps : List PostingTemplate)
    (hm : ruleMatches reMatch txn r = true)
    (hact : r.actions = [Action.add_txn af att])
    (haps : icd.appending_postings = some aps)
    (_hbps : icd.append_postings = some bps) :
    ∀ ems unp, process_transaction env reMatch (r :: rest) txn (some icd)
        omit_token default_import_id input_vars = Except.ok (ems, unp) →
      ∃ g gps, ems = [Emission.gen g] ∧ unp = none
        ∧ generate_postings
            (render_str env (mkTxnCtx txn omit_token) input_vars
              (matchedVarsOf env (mkTxnCtx txn omit_token) reMatch txn r) omit_token)
            (icd.prepend_postings.getD []
              ++ (match att.postings with
                  | some ps => ps
                  | none => (icd.default_txn.bind (fun t => t.postings)).getD [])
              ++ aps) = Except.ok gps
        ∧ g.postings = gps := by
  intro ems unp hres
  obtain ⟨g, hout, hemit⟩ := process_single_add env reMatch txn (some icd)
    omit_token default_import_id input_vars r rest af att hm hact (ems, unp) hres
  rw [Prod.ext_iff] at hout
  obtain ⟨h1, h2⟩ := hout
  obtain ⟨⟨gps, hgen, hpost⟩, -, -, -⟩ := emitAddTxn_ok_spec hemit
  simp only [Option.some_bind] at hgen
  rw [haps] at hgen
  exact ⟨g, gps, h1, h2, hgen, hpost⟩

/-- C2 witness: the amended composition law applied at the counterexample's
concrete input. -/
theorem appending_postings_wins_when_both_present_witness :
    ∃ g gps,
      [Emission.gen
        (⟨"out.bean", DEFAULT_TXN_TEMPLATE_id, some ["t.csv"],
          DEFAULT_TXN_TEMPLATE_date, "*", DEFAULT_TXN_TEMPLATE_narration,
          none, none, none, none, [⟨"DEP", none, none, none⟩]⟩ :
          GeneratedTransaction)] = [Emission.gen g]
      ∧ g.postings = gps := by
  obtain ⟨g, gps, h1, h2, h3, h4⟩ :=
    appending_postings_wins_when_both_present (fun s _ => s) (fun _ _ _ => false)
      { extractor := "E", file := some "t.csv" }
      { appending_postings := some [{ account := some "DEP" }]
        append_postings := some [{ account := some "NEW" }] }
      "OMIT" none none
      { match_ := RuleMatch.single { extractor := some (StrMatch.exact "E") }
        actions := [Action.add_txn (some "out.bean") { postings := some [] }] }
      [] (some "out.bean") { postings := some [] }
      [{ account := some "DEP" }] [{ account := some "NEW" }]
      (by decide) rfl rfl rfl
      [Emission.gen
        ⟨"out.bean", DEFAULT_TXN_TEMPLATE_id, some ["t.csv"],
          DEFAULT_TXN_TEMPLATE_date, "*", DEFAULT_TXN_TEMPLATE_narration,
          none, none, none, none, [⟨"DEP", none, none, none⟩]⟩] none rfl
  exact ⟨g, gps, h1, h4⟩

/-- C3: the unprocessed-transaction tail of `process_transaction` evaluated
at the failing input: with `append_postings` present the code renders the
`prepend_postings` templates as `appending_postings` (line 320 of
`processor.py` passes `prepend_postings` to `generate_postings` under the
`append_postings` guard), so the result carries the prepend rendering — and
with `prepend_postings` absent it raises `TypeError` instead of returning. -/
theorem unprocessed_appending_from_prepend_eval :
    process_transaction (fun s _ => s) (fun _ _ _ => false) [] { extractor := "E" }
        (some { append_postings := some [{ account := some "A" }] })
        "OMIT" none none
      = Except.error "TypeError: NoneType object is not iterable"
    ∧ process_transaction (fun s _ => s) (fun _ _ _ => false) [] { extractor := "E" }
        (some { prepend_postings := some [{ account := some "P" }]
                append_postings := some [{ account := some "A" }] })
        "OMIT" none none
      = Except.ok ([], some
          ⟨some DEFAULT_TXN_TEMPLATE_id, { extractor := "E" }, none,
            some [⟨"P", none, none, none⟩], some [⟨"P", none, none, none⟩]⟩)
    ∧ (some [(⟨"P", none, none, none⟩ : GeneratedPosting)]
        ≠ some [(⟨"A", none, none, none⟩ : GeneratedPosting)]) :=
  ⟨rfl, rfl, by decide⟩

/-- C4 counterexample: a transaction whose narration template renders to the
run's omit sentinel is not emitted with the narration field absent — the run
fails with a pydantic `ValidationError`, since `narration` is a required
field of `GeneratedTransaction`. -/
theorem omit_required_field_counterexample :
    process_transaction (fun s _ => s) (fun _ _ _ => false)
        [{ match_ := RuleMatch.single { extractor := some (StrMatch.exact "E") }
           actions := [Action.add_txn (some "out.bean")
             { id := some "i", date := some "2024-01-01", flag := some "*"
               narration := some "OMIT", postings := some [] }] }]
        { extractor := "E", file := some "t.csv" } none "OMIT" none none
      = Except.error "ValidationError: GeneratedTransaction.narration" := rfl

/-- C4 (amended): `render_str` returns `None` whenever the engine's result
equals the omit sentinel; the optional fields of the emission — payee, tags,
links, metadata and a posting's cost — are then absent from the emitted
transaction; but for the required fields — id, date, flag, narration, the
output file, a posting's account and the number and currency of an amount or
price — the emission fails with a pydantic `ValidationError` instead of
omitting the field. -/
theorem omit_optional_fields_amended (env : TemplateEnv) (reMatch : ReMatch)
    (txn : Transaction) (input_config : Option InputConfigDetails)
    (omit_token : String) (default_import_id : Option String)
    (input_vars : Option Ctx) (r : ImportRule) (rest : List ImportRule)
    (af : Option String) (att : TransactionTemplate)
    (hm : ruleMatches reMatch txn r = true)
    (hact : r.actions = [Action.add_txn af att]) :
    (∀ value : String,
        env value (renderCtx (mkTxnCtx txn omit_token) input_vars
          (matchedVarsOf env (mkTxnCtx txn omit_token) reMatch txn r)) = omit_token →
        render_str env (mkTxnCtx txn omit_token) input_vars
          (matchedVarsOf env (mkTxnCtx txn omit_token) reMatch txn r) omit_token
          (some value) = none)
    ∧ (∀ ems unp g, process_transaction env reMatch (r :: rest) txn input_config
          omit_token default_import_id input_vars = Except.ok (ems, unp) →
        ems = [Emission.gen g] →
        render_str env (mkTxnCtx txn omit_token) input_vars
          (matchedVarsOf env (mkTxnCtx txn omit_token) reMatch txn r) omit_token
          (first_non_none [att.payee,
            (input_config.bind (fun c => c.default_txn)).bind (fun t => t.payee)])
          = none →
        g.payee = none)
    ∧ (∀ ems unp g ts, process_transaction env reMatch (r :: rest) txn input_config
          omit_token default_import_id input_vars = Except.ok (ems, unp) →
        ems = [Emission.gen g] → att.tags = some ts →
        (∀ t ∈ ts, render_str env (mkTxnCtx txn omit_token) input_vars
          (matchedVarsOf env (mkTxnCtx txn omit_token) reMatch txn r) omit_token
          (some t) = none) →
        g.tags = none)
    ∧ (∀ ems unp g ls, process_transaction env reMatch (r :: rest) txn input_config
          omit_token default_import_id input_vars = Except.ok (ems, unp) →
        ems = [Emission.gen g] → att.links = some ls →
        (∀ t ∈ ls, render_str env (mkTxnCtx txn omit_token) input_vars
          (matchedVarsOf env (mkTxnCtx txn omit_token) reMatch txn r) omit_token
          (some t) = none) →
        g.links = none)
    ∧ (∀ ems unp g, process_transaction env reMatch (r :: rest) txn input_config
          omit_token default_import_id input_vars = Except.ok (ems, unp) →
        ems = [Emission.gen g] →
        (∀ m ∈ att.metadata.getD [], render_str env (mkTxnCtx txn omit_token)
          input_vars (matchedVarsOf env (mkTxnCtx txn omit_token) reMatch txn r)
          omit_token (some m.value) = none) →
        g.metadata = none)
    ∧ (∀ ems unp g (i : Nat) pt (c : String),
        process_transaction env reMatch (r :: rest) txn input_config
          omit_token default_import_id input_vars = Except.ok (ems, unp) →
        ems = [Emission.gen g] →
        ((input_config.bind (fun c2 => c2.prepend_postings)).getD []
          ++ (match att.postings with
              | some ps => ps
              | none => ((input_config.bind (fun c2 => c2.default_txn)).bind
                  (fun t => t.postings)).getD [])
          ++ (match input_config.bind (fun c2 => c2.appending_postings) with
              | some l => l
              | none => (input_config.bind (fun c2 => c2.append_postings)).getD []))[i]?
          = some pt →
        pt.cost = some c →
        render_str env (mkTxnCtx txn omit_token) input_vars
          (matchedVarsOf env (mkTxnCtx txn omit_token) reMatch txn r) omit_token
          (some c) = none →
        ∃ p, g.postings[i]? = some p ∧ p.cost = none)
    ∧ (render_str env (mkTxnCtx txn omit_token) input_vars
          (matchedVarsOf env (mkTxnCtx txn omit_token) reMatch txn r) omit_token
          (first_non_none [att.id,
            (input_config.bind (fun c => c.default_txn)).bind (fun t => t.id),
            default_import_id, some DEFAULT_TXN_TEMPLATE_id]) = none →
        ∀ out, process_transaction env reMatch (r :: rest) txn input_config
          omit_token default_import_id input_vars ≠ Except.ok out)
    ∧ (render_str env (mkTxnCtx txn omit_token) input_vars
          (matchedVarsOf env (mkTxnCtx txn omit_token) reMatch txn r) omit_token
          (first_non_none [att.date,
            (input_config.bind (fun c => c.default_txn)).bind (fun t => t.date),
            some DEFAULT_TXN_TEMPLATE_date]) = none →
        ∀ out, process_transaction env reMatch (r :: rest) txn input_config
          omit_token default_import_id input_vars ≠ Except.ok out)
    ∧ (render_str env (mkTxnCtx txn omit_token) input_vars
          (matchedVarsOf env (mkTxnCtx txn omit_token) reMatch txn r) omit_token
          (first_non_none [att.flag,
            (input_config.bind (fun c => c.default_txn)).bind (fun t => t.flag),
            some DEFAULT_TXN_TEMPLATE_flag]) = none →
        ∀ out, process_transaction env reMatch (r :: rest) txn input_config
          omit_token default_import_id input_vars ≠ Except.ok out)
    ∧ (render_str env (mkTxnCtx txn omit_token) input_vars
          (matchedVarsOf env (mkTxnCtx txn omit_token) reMatch txn r) omit_token
          (first_non_none [att.narration,
            (input_config.bind (fun c => c.default_txn)).bind (fun t => t.narration),
            some DEFAULT_TXN_TEMPLATE_narration]) = none →
        ∀ out, process_transaction env reMatch (r :: rest) txn input_config
          omit_token default_import_id input_vars ≠ Except.ok out)
    ∧ (∀ f0, first_non_none [af, input_config.bind (fun c => c.default_file)]
          = some f0 →
        render_str env (mkTxnCtx txn omit_token) input_vars
          (matchedVarsOf env (mkTxnCtx txn omit_token) reMatch txn r) omit_token
          (some f0) = none →
        ∀ out, process_transaction env reMatch (r :: rest) txn input_config
          omit_token default_import_id input_vars ≠ Except.ok out)
    ∧ (∀ pt, pt ∈ ((input_config.bind (fun c2 => c2.prepend_postings)).getD []
          ++ (match att.postings with
              | some ps => ps
              | none => ((input_config.bind (fun c2 => c2.default_txn)).bind
                  (fun t => t.postings)).getD [])
          ++ (match input_config.bind (fun c2 => c2.appending_postings) with
              | some l => l
              | none => (input_config.bind (fun c2 => c2.append_postings)).getD [])) →
        (render_str env (mkTxnCtx txn omit_token) input_vars
            (matchedVarsOf env (mkTxnCtx txn omit_token) reMatch txn r) omit_token
            pt.account = none
          ∨ (∃ a, pt.amount = some a
              ∧ (render_str env (mkTxnCtx txn omit_token) input_vars
                  (matchedVarsOf env (mkTxnCtx txn omit_token) reMatch txn r)
                  omit_token a.number = none
                ∨ render_str env (mkTxnCtx txn omit_token) input_vars
                  (matchedVarsOf env (mkTxnCtx txn omit_token) reMatch txn r)
                  omit_token a.currency = none))
          ∨ (∃ pr, pt.price = some pr
              ∧ (render_str env (mkTxnCtx txn omit_token) input_vars
                  (matchedVarsOf env (mkTxnCtx txn omit_token) reMatch txn r)
                  omit_token pr.number = none
                ∨ render_str env (mkTxnCtx txn omit_token) input_vars
                  (matchedVarsOf env (mkTxnCtx txn omit_token) reMatch txn r)
                  omit_token pr.currency = none))) →
        ∀ out, process_transaction env reMatch (r :: rest) txn input_config
          omit_token default_import_id input_vars ≠ Except.ok out) := by
  refine ⟨?_, ?_, ?_, ?_, ?_, ?_, ?_, ?_, ?_, ?_, ?_, ?_⟩
  · intro value hval
    unfold render_str
    dsimp only
    rw [hval]
    simp
  · intro ems unp g hres hems hpayee
    subst hems
    obtain ⟨g2, hout, hemit⟩ := process_single_add env reMatch txn input_config
      omit_token default_import_id input_vars r rest af att hm hact _ hres
    rw [Prod.ext_iff] at hout
    obtain ⟨h1, -⟩ := hout
    simp only [List.cons.injEq, Emission.gen.injEq, and_true] at h1
    subst h1
    obtain ⟨-, hpy, -⟩ := emitAddTxn_ok_spec hemit
    rw [hpy, hpayee]
  · intro ems unp g ts hres hems htags hall
    subst hems
    obtain ⟨g2, hout, hemit⟩ := process_single_add env reMatch txn input_config
      omit_token default_import_id input_vars r rest af att hm hact _ hres
    rw [Prod.ext_iff] at hout
    obtain ⟨h1, -⟩ := hout
    simp only [List.cons.injEq, Emission.gen.injEq, and_true] at h1
    subst h1
    obtain ⟨-, -, htg, -⟩ := emitAddTxn_ok_spec hemit
    rw [htg, htags]
    exact process_links_or_tags_all_none hall
  · intro ems unp g ls hres hems hlinks hall
    subst hems
    obtain ⟨g2, hout, hemit⟩ := process_single_add env reMatch txn input_config
      omit_token default_import_id input_vars r rest af att hm hact _ hres
    rw [Prod.ext_iff] at hout
    obtain ⟨h1, -⟩ := hout
    simp only [List.cons.injEq, Emission.gen.injEq, and_true] at h1
    subst h1
    obtain ⟨-, -, -, hlk, -⟩ := emitAddTxn_ok_spec hemit
    rw [hlk, hlinks]
    exact process_links_or_tags_all_none hall
  · intro ems unp g hres hems hmeta
    subst hems
    obtain ⟨g2, hout, hemit⟩ := process_single_add env reMatch txn input_config
      omit_token default_import_id input_vars r rest af att hm hact _ hres
    rw [Prod.ext_iff] at hout
    obtain ⟨h1, -⟩ := hout
    simp only [List.cons.injEq, Emission.gen.injEq, and_true] at h1
    subst h1
    obtain ⟨-, -, -, -, hmd, -⟩ := emitAddTxn_ok_spec hemit
    rw [hmd]
    exact metaItemsRender_all_none hmeta
  · intro ems unp g i pt c hres hems hget hcost hcnone
    subst hems
    obtain ⟨g2, hout, hemit⟩ := process_single_add env reMatch txn input_config
      omit_token default_import_id input_vars r rest af att hm hact _ hres
    rw [Prod.ext_iff] at hout
    obtain ⟨h1, -⟩ := hout
    simp only [List.cons.injEq, Emission.gen.injEq, and_true] at h1
    subst h1
    obtain ⟨⟨gps, hgen, hpost⟩, -⟩ := emitAddTxn_ok_spec hemit
    obtain ⟨p, hp, hpc⟩ := generate_postings_cost hgen i pt hget
    rw [hcost] at hpc
    have hpc2 : p.cost = render_str env (mkTxnCtx txn omit_token) input_vars
        (matchedVarsOf env (mkTxnCtx txn omit_token) reMatch txn r) omit_token
        (some c) := hpc
    rw [hcnone] at hpc2
    refine ⟨p, ?_, hpc2⟩
    rw [hpost]
    exact hp
  · intro hid out hres
    obtain ⟨g, -, hemit⟩ := process_single_add env reMatch txn input_config
      omit_token default_import_id input_vars r rest af att hm hact out hres
    obtain ⟨-, -, -, -, -, ⟨s, hs⟩, -⟩ := emitAddTxn_ok_spec hemit
    rw [hid] at hs
    cases hs
  · intro hdate out hres
    obtain ⟨g, -, hemit⟩ := process_single_add env reMatch txn input_config
      omit_token default_import_id input_vars r rest af att hm hact out hres
    obtain ⟨-, -, -, -, -, -, ⟨s, hs⟩, -⟩ := emitAddTxn_ok_spec hemit
    rw [hdate] at hs
    cases hs
  · intro hflag out hres
    obtain ⟨g, -, hemit⟩ := process_single_add env reMatch txn input_config
      omit_token default_import_id input_vars r rest af att hm hact out hres
    obtain ⟨-, -, -, -, -, -, -, ⟨s, hs⟩, -⟩ := emitAddTxn_ok_spec hemit
    rw [hflag] at hs
    cases hs
  · intro hnarr out hres
    obtain ⟨g, -, hemit⟩ := process_single_add env reMatch txn input_config
      omit_token default_import_id input_vars r rest af att hm hact out hres
    obtain ⟨-, -, -, -, -, -, -, -, ⟨n, hn, -⟩, -⟩ := emitAddTxn_ok_spec hemit
    rw [hnarr] at hn
    cases hn
  · intro f0 hf0 hren out hres
    obtain ⟨g, -, hemit⟩ := process_single_add env reMatch txn input_config
      omit_token default_import_id input_vars r rest af att hm hact out hres
    obtain ⟨-, -, -, -, -, -, -, -, -, f1, s, hf1, hs, -⟩ :=
      emitAddTxn_ok_spec hemit
    rw [hf0] at hf1
    injection hf1 with h2
    rw [← h2] at hs
    rw [hren] at hs
    cases hs
  · intro pt hmem hdisj out hres
    obtain ⟨g, -, hemit⟩ := process_single_add env reMatch txn input_config
      omit_token default_import_id input_vars r rest af att hm hact out hres
    obtain ⟨⟨gps, hgen, -⟩, -⟩ := emitAddTxn_ok_spec hemit
    obtain ⟨⟨s0, hacc⟩, hamt, hprc⟩ := generate_postings_ok_req hgen pt hmem
    rcases hdisj with hnone | ⟨a, ha, hba⟩ | ⟨pr, hp, hbp⟩
    · rw [hnone] at hacc
      cases hacc
    · obtain ⟨⟨s1, h1⟩, ⟨s2, h2⟩⟩ := hamt a ha
      rcases hba with hb | hb
      · rw [hb] at h1
        cases h1
      · rw [hb] at h2
        cases h2
    · obtain ⟨⟨s1, h1⟩, ⟨s2, h2⟩⟩ := hprc pr hp
      rcases hbp with hb | hb
      · rw [hb] at h1
        cases h1
      · rw [hb] at h2
        cases h2

/-- C4 witness: the amended omit discipline applied at concrete inputs: a
payee, links list and metadata list rendering to the sentinel leave `payee`,
`links` and `metadata` absent from the emitted transaction, while an id or a
narration rendering to the sentinel makes the run un-completable. -/
theorem omit_optional_fields_amended_witness :
    render_str (fun s _ => s)
        (mkTxnCtx { extractor := "E", file := some "t.csv" } "OMIT") none none "OMIT"
        (some "OMIT") = none
    ∧ (⟨"out.bean", "i", some ["t.csv"], "2024-01-01", "*", "N",
        none, none, none, none, []⟩ : GeneratedTransaction).payee = none
    ∧ (⟨"out.bean", "i", some ["t.csv"], "2024-01-01", "*", "N",
        none, none, none, none, []⟩ : GeneratedTransaction).links = none
    ∧ (⟨"out.bean", "i", some ["t.csv"], "2024-01-01", "*", "N",
        none, none, none, none, []⟩ : GeneratedTransaction).metadata = none
    ∧ process_transaction (fun s _ => s) (fun _ _ _ => false)
        [{ match_ := RuleMatch.single { extractor := some (StrMatch.exact "E") }
           actions := [Action.add_txn (some "out.bean")
             { id := some "OMIT", date := some "2024-01-01", flag := some "*"
               narration := some "N", postings := some [] }] }]
        { extractor := "E", file := some "t.csv" } none "OMIT" none none
      ≠ Except.ok ([], none)
    ∧ process_transaction (fun s _ => s) (fun _ _ _ => false)
        [{ match_ := RuleMatch.single { extractor := some (StrMatch.exact "E") }
           actions := [Action.add_txn (some "out.bean")
             { id := some "i", date := some "2024-01-01", flag := some "*"
               narration := some "OMIT", postings := some [] }] }]
        { extractor := "E", file := some "t.csv" } none "OMIT" none none
      ≠ Except.ok ([], none) := by
  refine ⟨?_, ?_, ?_, ?_, ?_, ?_⟩
  · exact (omit_optional_fields_amended (fun s _ => s) (fun _ _ _ => false)
      { extractor := "E", file := some "t.csv" } none "OMIT" none none
      { match_ := RuleMatch.single { extractor := some (StrMatch.exact "E") }
        actions := [Action.add_txn (some "out.bean")
          { id := some "i", date := some "2024-01-01", flag := some "*"
            narration := some "N", payee := some "OMIT", links := some ["OMIT"]
            metadata := some [⟨"k", "OMIT"⟩], postings := some [] }] }
      [] (some "out.bean")
      { id := some "i", date := some "2024-01-01", flag := some "*"
        narration := some "N", payee := some "OMIT", links := some ["OMIT"]
        metadata := some [⟨"k", "OMIT"⟩], postings := some [] }
      (by decide) rfl).1 "OMIT" rfl
  · exact (omit_optional_fields_amended (fun s _ => s) (fun _ _ _ => false)
      { extractor := "E", file := some "t.csv" } none "OMIT" none none
      { match_ := RuleMatch.single { extractor := some (StrMatch.exact "E") }
        actions := [Action.add_txn (some "out.bean")
          { id := some "i", date := some "2024-01-01", flag := some "*"
            narration := some "N", payee := some "OMIT", links := some ["OMIT"]
            metadata := some [⟨"k", "OMIT"⟩], postings := some [] }] }
      [] (some "out.bean")
      { id := some "i", date := some "2024-01-01", flag := some "*"
        narration := some "N", payee := some "OMIT", links := some ["OMIT"]
        metadata := some [⟨"k", "OMIT"⟩], postings := some [] }
      (by decide) rfl).2.1
      [Emission.gen ⟨"out.bean", "i", some ["t.csv"], "2024-01-01", "*", "N",
        none, none, none, none, []⟩] none
      ⟨"out.bean", "i", some ["t.csv"], "2024-01-01", "*", "N",
        none, none, none, none, []⟩ rfl rfl rfl
  · exact (omit_optional_fields_amended (fun s _ => s) (fun _ _ _ => false)
      { extractor := "E", file := some "t.csv" } none "OMIT" none none
      { match_ := RuleMatch.single { extractor := some (StrMatch.exact "E") }
        actions := [Action.add_txn (some "out.bean")
          { id := some "i", date := some "2024-01-01", flag := some "*"
            narration := some "N", payee := some "OMIT", links := some ["OMIT"]
            metadata := some [⟨"k", "OMIT"⟩], postings := some [] }] }
      [] (some "out.bean")
      { id := some "i", date := some "2024-01-01", flag := some "*"
        narration := some "N", payee := some "OMIT", links := some ["OMIT"]
        metadata := some [⟨"k", "OMIT"⟩], postings := some [] }
      (by decide) rfl).2.2.2.1
      [Emission.gen ⟨"out.bean", "i", some ["t.csv"], "2024-01-01", "*", "N",
        none, none, none, none, []⟩] none
      ⟨"out.bean", "i", some ["t.csv"], "2024-01-01", "*", "N",
        none, none, none, none, []⟩ ["OMIT"] rfl rfl rfl (by decide)
  · exact (omit_optional_fields_amended (fun s _ => s) (fun _ _ _ => false)
      { extractor := "E", file := some "t.csv" } none "OMIT" none none
      { match_ := RuleMatch.single { extractor := some (StrMatch.exact "E") }
        actions := [Action.add_txn (some "out.bean")
          { id := some "i", date := some "2024-01-01", flag := some "*"
            narration := some "N", payee := some "OMIT", links := some ["OMIT"]
            metadata := some [⟨"k", "OMIT"⟩], postings := some [] }] }
      [] (some "out.bean")
      { id := some "i", date := some "2024-01-01", flag := some "*"
        narration := some "N", payee := some "OMIT", links := some ["OMIT"]
        metadata := some [⟨"k", "OMIT"⟩], postings := some [] }
      (by decide) rfl).2.2.2.2.1
      [Emission.gen ⟨"out.bean", "i", some ["t.csv"], "2024-01-01", "*", "N",
        none, none, none, none, []⟩] none
      ⟨"out.bean", "i", some ["t.csv"], "2024-01-01", "*", "N",
        none, none, none, none, []⟩ rfl rfl (by decide)
  · exact (omit_optional_fields_amended (fun s _ => s) (fun _ _ _ => false)
      { extractor := "E", file := some "t.csv" } none "OMIT" none none
      { match_ := RuleMatch.single { extractor := some (StrMatch.exact "E") }
        actions := [Action.add_txn (some "out.bean")
          { id := some "OMIT", date := some "2024-01-01", flag := some "*"
            narration := some "N", postings := some [] }] }
      [] (some "out.bean")
      { id := some "OMIT", date := some "2024-01-01", flag := some "*"
        narration := some "N", postings := some [] }
      (by decide) rfl).2.2.2.2.2.2.1 rfl ([], none)
  · exact (omit_optional_fields_amended (fun s _ => s) (fun _ _ _ => false)
      { extractor := "E", file := some "t.csv" } none "OMIT" none none
      { match_ := RuleMatch.single { extractor := some (StrMatch.exact "E") }
        actions := [Action.add_txn (some "out.bean")
          { id := some "i", date := some "2024-01-01", flag := some "*"
            narration := some "OMIT", postings := some [] }] }
      [] (some "out.bean")
      { id := some "i", date := some "2024-01-01", flag := some "*"
        narration := some "OMIT", postings := some [] }
      (by decide) rfl).2.2.2.2.2.2.2.2.2.1 rfl ([], none)

/-- C5: every deleted id wins in `compute_changes`: each existing transaction
bearing a deleted id is queued for removal on its file, and no add and no
update entry is produced for any generated transaction bearing a deleted
id. -/
theorem compute_changes_deleted_wins (resolve : String → String)
    (join : String → String → String)
    (generated_txns : List GeneratedTransaction)
    (imported_txns : List BeancountTransaction)
    (work_dir : String) (deleted_txns : Option (List DeletedTransaction)) :
    (∀ t ∈ imported_txns,
        t.id ∈ ((deleted_txns.getD []).map (fun d => d.id)).toFinset →
        ∃ cs, compute_changes resolve join generated_txns imported_txns work_dir
            deleted_txns t.file = some cs ∧ t ∈ cs.remove)
    ∧ (∀ f cs, compute_changes resolve join generated_txns imported_txns work_dir
          deleted_txns f = some cs →
        (∀ g ∈ cs.add, g.id ∉ ((deleted_txns.getD []).map (fun d => d.id)).toFinset)
        ∧ (∀ p ∈ cs.update,
            p.2.txn.id ∉ ((deleted_txns.getD []).map (fun d => d.id)).toFinset)) := by
  constructor
  · intro t ht hdel
    have hmem := imp_fold_remove_mem resolve join work_dir
      (((deleted_txns.getD []).map (fun d => d.id)).toFinset)
      (pyDictGet (generated_txns.map (fun g => (g.id, g)))) imported_txns ([], []) ht hdel
    have hkey := mem_ddGet_key hmem
    exact ⟨_, compute_changes_eq_of_mem resolve join generated_txns imported_txns work_dir
      deleted_txns t.file
      (List.mem_append_left _ (List.mem_append_left _ (List.mem_append_left _ hkey))),
      hmem⟩
  · intro f cs hres
    simp only [compute_changes] at hres
    split at hres
    · injection hres with h
      subst h
      constructor
      · intro g hg
        have hinv := gen_fold_add_inv resolve join work_dir
          (((deleted_txns.getD []).map (fun d => d.id)).toFinset)
          (pyDictGet (imported_txns.map (fun t => (t.id, t)))) generated_txns ([], [])
          (fun kv hkv => absurd hkv (List.not_mem_nil _))
        have hres := DDAll_ddGet hinv hg
        exact hres
      · intro p hp
        have hinv := gen_fold_update_inv resolve join work_dir
          (((deleted_txns.getD []).map (fun d => d.id)).toFinset)
          (pyDictGet (imported_txns.map (fun t => (t.id, t)))) generated_txns ([], [])
          (fun kv hkv => absurd hkv (List.not_mem_nil _))
        have hres := DDAll_ddGet hinv hp
        exact hres
    · cases hres

/-- C5 witness: a concrete deleted id queues the existing transaction for
removal. -/
theorem compute_changes_deleted_wins_witness :
    ∃ cs, compute_changes (fun s => s) (fun a b => a ++ "/" ++ b)
        [⟨"out.bean", "x", none, "2024-01-01", "*", "n", none, none, none, none, []⟩]
        [⟨"w/out.bean", 5, "x", none⟩] "w" (some [⟨"x"⟩]) "w/out.bean" = some cs
      ∧ (⟨"w/out.bean", 5, "x", none⟩ : BeancountTransaction) ∈ cs.remove :=
  (compute_changes_deleted_wins (fun s => s) (fun a b => a ++ "/" ++ b)
      [⟨"out.bean", "x", none, "2024-01-01", "*", "n", none, none, none, none, []⟩]
      [⟨"w/out.bean", 5, "x", none⟩] "w" (some [⟨"x"⟩])).1
    ⟨"w/out.bean", 5, "x", none⟩ (List.mem_singleton.mpr rfl) (by decide)

/-- C6: `compute_changes` never classifies an existing transaction carrying an
override flag set as dangling; every member of a dangling list has no
generated counterpart and no override set. -/
theorem compute_changes_dangling_stability (resolve : String → String)
    (join : String → String → String)
    (generated_txns : List GeneratedTransaction)
    (imported_txns : List BeancountTransaction)
    (work_dir : String) (deleted_txns : Option (List DeletedTransaction)) :
    (∀ f cs, compute_changes resolve join generated_txns imported_txns work_dir
          deleted_txns f = some cs →
        ∀ d, cs.dangling = some d → ∀ t ∈ d,
          t.override = none ∧ ∀ g ∈ generated_txns, g.id ≠ t.id)
    ∧ (∀ t : BeancountTransaction, t.override ≠ none →
        ∀ f cs d, compute_changes resolve join generated_txns imported_txns work_dir
            deleted_txns f = some cs →
          cs.dangling = some d → t ∉ d) := by
  have main : ∀ f cs, compute_changes resolve join generated_txns imported_txns work_dir
      deleted_txns f = some cs →
      ∀ d, cs.dangling = some d → ∀ t ∈ d,
        t.override = none ∧ ∀ g ∈ generated_txns, g.id ≠ t.id := by
    intro f cs hres d hd t ht
    simp only [compute_changes] at hres
    split at hres
    · injection hres with h
      subst h
      simp only [Option.some.injEq] at hd
      subst hd
      have hfold := imp_fold_dangling_inv resolve join work_dir
        (((deleted_txns.getD []).map (fun d => d.id)).toFinset)
        (pyDictGet (generated_txns.map (fun g => (g.id, g)))) imported_txns ([], [])
        (fun kv hkv => absurd hkv (List.not_mem_nil _))
      have hinv := DDAll_ddGet hfold ht
      refine ⟨hinv.1, ?_⟩
      intro g hg hgid
      have := pyDictGet_none_iff.mp hinv.2 (g.id, g)
        (List.mem_map.mpr ⟨g, hg, rfl⟩)
      exact this hgid
    · cases hres
  refine ⟨main, ?_⟩
  intro t hov f cs d hres hd ht
  exact hov ((main f cs hres d hd t ht).1)

/-- C6 witness: with one overridden and one plain existing transaction and no
generated transactions, only the plain one is dangling; the overridden one is
not in the dangling list. -/
theorem compute_changes_dangling_stability_witness :
    compute_changes (fun s => s) (fun a b => a ++ "/" ++ b) []
        [⟨"f.bean", 1, "a", some {ImportOverrideFlag.ALL}⟩, ⟨"f.bean", 7, "b", none⟩]
        "w" none "f.bean"
      = some ⟨[], [], [], some [⟨"f.bean", 7, "b", none⟩]⟩
    ∧ (⟨"f.bean", 1, "a", some {ImportOverrideFlag.ALL}⟩ : BeancountTransaction)
        ∉ [(⟨"f.bean", 7, "b", none⟩ : BeancountTransaction)] := by
  constructor
  · decide
  · exact (compute_changes_dangling_stability (fun s => s) (fun a b => a ++ "/" ++ b) []
      [⟨"f.bean", 1, "a", some {ImportOverrideFlag.ALL}⟩, ⟨"f.bean", 7, "b", none⟩]
      "w" none).2
      ⟨"f.bean", 1, "a", some {ImportOverrideFlag.ALL}⟩ (by decide) "f.bean"
      ⟨[], [], [], some [⟨"f.bean", 7, "b", none⟩]⟩ [⟨"f.bean", 7, "b", none⟩]
      (by decide) rfl

/-- C8 witness: the theorem evaluated at concrete inputs. -/
theorem parse_override_flags_spec_witness :
    parse_override_flags "none,date" = none
    ∧ parse_override_flags "date,flag" =
        some {ImportOverrideFlag.DATE, ImportOverrideFlag.FLAG} := by
  constructor
  · exact (parse_override_flags_spec "none,date").2
      [ImportOverrideFlag.NONE, ImportOverrideFlag.DATE] (by decide) |>.1 (by decide)
  · exact (parse_override_flags_spec "date,flag").2
      [ImportOverrideFlag.DATE, ImportOverrideFlag.FLAG] (by decide) |>.2 (by decide)

end Beanhub
